import Mathlib

/-!
# faketp: port pool and FTP command dispatcher

A shallow embedding of `ftp.go` and `main.go`.

* Go `int` is embedded as `Int`. The one sum on a value that a caller hands in,
  `sess.Failures += 1`, wraps around at the 64-bit machine word (`wrapInt64`).
  The seeding loop of the port pool is written on `Int`: its sums stay inside the
  machine word whenever `port_end` is below the largest machine integer, as for
  every range of port numbers (at most 65535), and the statements about a seeded
  range of ports carry that bound. Response codes are literals.
* Go `string` is embedded as `String`, so a line is a sequence of Unicode
  code points (a line of valid UTF-8).
* A Go `map[int]int` whose values are all `0` is embedded as the `Finset` of
  its keys. The order in which `range` visits the keys is not fixed by the
  language; it is an explicit argument of the embedding, constrained by
  `IterationOf`.
* A function that can stop with a run-time panic (slice index out of range)
  returns `Option`; `none` is the panic.
* `conn.Write` is embedded by returning the list of written strings.
  `log.Printf` and `time.Sleep` leave no trace in the embedding.
-/

namespace Faketp

/-! ## Constants and records (`ftp.go` 12-42, `main.go` 14-51) -/

/-- The constant `AUTH_SLEEP` of `ftp.go`: seconds slept after an auth failure. -/
def AUTH_SLEEP : Int := 1

/-- The constant `FAILURE_LIMIT` of `ftp.go`: failures allowed in a session. -/
def FAILURE_LIMIT : Int := 3

/-- The constant `NAME` of `main.go`. -/
def NAME : String := "FakeTP"

/-- The constant `VERSION` of `main.go`. -/
def VERSION : String := "0.1.0"

/-- The record `FtpSession` of `ftp.go`. -/
structure FtpSession where
  Host : String
  Authenticated : Bool
  Username : String
  Failures : Int
  Upload_requested : Bool
  Download_requested : Bool
  Passive_mode : Bool
  Data_port : Int
deriving DecidableEq

/-- The record `port_request` of `ftp.go`: action 0 requests a port, action 1
releases `port`. -/
structure port_request where
  action : Int
  port : Int
deriving DecidableEq

/-- The fields of `ConfigOptions` (`main.go`) that `ftp.go` and `NewConnection`
read: `Pull.Url`, `Permissive`, `Motd`, `Help`, `Fakedir_root`, `Fakedir_list`. -/
structure ConfigOptions where
  Pull_Url : String
  Permissive : Bool
  Motd : String
  Help : String
  Fakedir_root : String
  Fakedir_list : List String
deriving DecidableEq

/-- The global `UserCredentials` of `main.go`, a `map[string]string`, as its
lookup function: `none` when the key is absent. -/
abbrev Credentials := String → Option String

/-! ## The port pool (`ftp.go` 52-95) -/

/-- The two maps local to `PortProvider`, each as the set of its keys. -/
structure PortState where
  available : Finset Int
  reserved : Finset Int
deriving DecidableEq

/-- The seeding loop `for i := 0; (port_start + i) <= port_end; i++` of
`PortProvider`, started at counter `i` with the map `available`. The sums are those of
`Int`; they are the sums of the machine word as long as `port_end` is below the
largest machine integer (see `grants_whole_range` for ranges of port numbers). -/
def PortProvider.populate (port_start port_end : Int) (i : Int)
    (available : Finset Int) : Finset Int :=
  if port_start + i ≤ port_end then
    PortProvider.populate port_start port_end (i + 1) (insert (port_start + i) available)
  else available
termination_by (port_end - (port_start + i) + 1).toNat
decreasing_by omega

/-- The start of `PortProvider`: `none` is the `log.Fatalf` for
`port_start > port_end`; otherwise the two maps as the worker loop first sees them. -/
def PortProvider.init (port_start port_end : Int) : Option PortState :=
  if port_start > port_end then none
  else some { available := PortProvider.populate port_start port_end 0 ∅, reserved := ∅ }

/-- The list `order` is a possible order in which `range` visits a map with
key set `m`: every key once. -/
def IterationOf (m : Finset Int) (order : List Int) : Prop :=
  order.Nodup ∧ order.toFinset = m

instance (m : Finset Int) (order : List Int) : Decidable (IterationOf m order) := by
  unfold IterationOf; infer_instance

/-- The selection loop `new_port := 0; for k, _ := range available { new_port = k }`
for a visiting order of the keys. -/
def PortProvider.new_port (order : List Int) : Int :=
  order.foldl (fun _ k => k) 0

/-- One turn of the worker loop of `PortProvider`: the message `req` is handled
in state `s`, where `order` is the order in which `range available` visits the
keys. The result is the next state and the value sent on the output channel,
if any. -/
def PortProvider.handle (port_start port_end : Int) (s : PortState) (order : List Int)
    (req : port_request) : PortState × Option Int :=
  if req.action = 0 then
    let new_port := PortProvider.new_port order
    if new_port = 0 then
      (s, some (-1))
    else
      ({ available := s.available.erase new_port, reserved := insert new_port s.reserved },
        some new_port)
  else if req.action = 1 then
    if req.port < port_start ∨ req.port > port_end then
      (s, none)
    else if req.port ∉ s.reserved then
      (s, none)
    else
      ({ available := insert req.port s.available, reserved := s.reserved.erase req.port }, none)
  else
    (s, none)

/-- A finite run of the worker loop: the messages handled one after the other,
each paired with what the worker sent in reply, from the first state to the last.
Every request may see any visiting order of the available map. -/
inductive PortProvider.Run (port_start port_end : Int) :
    PortState → List (port_request × Option Int) → PortState → Prop
  | done (s : PortState) : PortProvider.Run port_start port_end s [] s
  | turn (s : PortState) (order : List Int) (req : port_request)
      (rest : List (port_request × Option Int)) (s_end : PortState) :
      IterationOf s.available order →
      PortProvider.Run port_start port_end
        (PortProvider.handle port_start port_end s order req).1 rest s_end →
      PortProvider.Run port_start port_end s
        ((req, (PortProvider.handle port_start port_end s order req).2) :: rest) s_end

/-- The pool state `s` is reached by `PortProvider(port_start, port_end)` after
some finite sequence of messages. -/
def PortProvider.Reachable (port_start port_end : Int) (s : PortState) : Prop :=
  ∃ s0 trace, PortProvider.init port_start port_end = some s0 ∧
    PortProvider.Run port_start port_end s0 trace s

/-- The message `{0, 0}` that requests a port. -/
def PortProvider.request : port_request := { action := 0, port := 0 }

/-- The message `{1, p}` that releases port `p`. -/
def PortProvider.release (p : Int) : port_request := { action := 1, port := p }

/-- The trace of consecutive `request()` calls answered with the numbers `outs`. -/
def PortProvider.requests (outs : List Int) : List (port_request × Option Int) :=
  outs.map fun p => (PortProvider.request, some p)

/-- The two maps share no key. -/
def PortState.Separate (s : PortState) : Prop :=
  ∀ p, p ∈ s.available → p ∉ s.reserved

/-- The two maps together hold exactly the ports of the range. -/
def PortState.Covers (port_start port_end : Int) (s : PortState) : Prop :=
  ∀ p, (p ∈ s.available ∨ p ∈ s.reserved) ↔ (port_start ≤ p ∧ p ≤ port_end)

/-! ## Library functions used by the dispatcher -/

/-- Go `unicode.IsSpace`. -/
def unicode_IsSpace (r : Char) : Bool :=
  let n := r.toNat
  (9 ≤ n && n ≤ 13) || n == 0x20 || n == 0x85 || n == 0xA0 || n == 0x1680 ||
    (0x2000 ≤ n && n ≤ 0x200A) || n == 0x2028 || n == 0x2029 || n == 0x202F ||
    n == 0x205F || n == 0x3000

/-- A rune sequence without its leading and its trailing white space. -/
def trimRunes (l : List Char) : List Char :=
  ((l.dropWhile unicode_IsSpace).reverse.dropWhile unicode_IsSpace).reverse

/-- Go `strings.TrimSpace`: leading and trailing white space removed. -/
def strings_TrimSpace (s : String) : String :=
  ⟨trimRunes s.data⟩

/-- The pieces of a rune sequence between single spaces. -/
def splitRunes : List Char → List (List Char)
  | [] => [[]]
  | c :: cs =>
    if c = ' ' then [] :: splitRunes cs
    else
      match splitRunes cs with
      | [] => [[c]]
      | w :: ws => (c :: w) :: ws

/-- Go `strings.Split(s, " ")`: the substrings between single spaces; the empty
string gives one empty substring. -/
def strings_Split (s : String) : List String :=
  (splitRunes s.data).map String.mk

/-- Go `unicode.ToUpper` as far as the dispatcher depends on it: exact on ASCII
and on the two runes outside ASCII whose upper case is an ASCII letter (U+0131
and U+017F). Every other rune outside ASCII has an upper case outside ASCII and
is left as it is: the result is only ever compared with ASCII command words. -/
def unicode_ToUpper (r : Char) : Char :=
  if 'a' ≤ r ∧ r ≤ 'z' then Char.ofNat (r.toNat - 32)
  else if r.toNat = 0x131 then 'I'
  else if r.toNat = 0x17F then 'S'
  else r

/-- Go `strings.ToUpper`. -/
def strings_ToUpper (s : String) : String :=
  ⟨s.data.map unicode_ToUpper⟩

/-- Go `strings.Join`. -/
def strings_Join : List String → String → String
  | [], _ => ""
  | [a], _ => a
  | a :: b :: rest, sep => a ++ sep ++ strings_Join (b :: rest) sep

/-- The value of a Go `int` sum on a 64-bit machine word: a mathematical sum outside
`-2^63 .. 2^63 - 1` wraps around. -/
def wrapInt64 (x : Int) : Int :=
  (x + 9223372036854775808) % 18446744073709551616 - 9223372036854775808

/-- The verb `%v` of `fmt.Sprintf` at an `int`: decimal digits. -/
def fmt_int (n : Int) : String := toString n

/-! ## Response writer (`ftp.go` 195-208) -/

/-- The function `WriteResponse`: the bytes of its single `conn.Write`. -/
def WriteResponse (code : Int) (msg : String) : String :=
  fmt_int code ++ " " ++ msg ++ "\r\n"

/-- The function `WriteResponseMultiLine`: the slice after the two stores into
it, and the bytes of its single `conn.Write`. It is `none` when an index is out
of range. -/
def WriteResponseMultiLine (code : Int) (msg_slice : List String) :
    Option (List String × String) := do
  let first ← msg_slice[0]?
  let msg_slice := msg_slice.set 0 (fmt_int code ++ "-" ++ first)
  let last ← msg_slice[msg_slice.length - 1]?
  let msg_slice := msg_slice.set (msg_slice.length - 1) (fmt_int code ++ " " ++ last)
  let msg_string := strings_Join msg_slice "\r\n"
  some (msg_slice, msg_string ++ "\r\n")

/-! ## Command handlers (`ftp.go` 210-298) -/

/-- What a command handler returns: the session after it, and its three results. -/
structure HandlerResult where
  sess : FtpSession
  ok : Bool
  code : Int
  msg : String
deriving DecidableEq

/-- The function `AuthUser`. -/
def AuthUser (UserCredentials : Credentials) (user_cmd : List String) (sess : FtpSession) :
    Option HandlerResult :=
  if user_cmd.length ≠ 2 then
    some ⟨sess, false, 500, "Bad USER command"⟩
  else if sess.Authenticated then
    some ⟨sess, false, 500, "Already logged in"⟩
  else do
    let name ← user_cmd[1]?
    if (UserCredentials name).isNone then
      some ⟨sess, false, 530, "Bad or Unknown User"⟩
    else
      some ⟨{ sess with Username := name, Authenticated := false }, true, 331,
        "User OK, specify password"⟩

/-- The function `CheckPassword`. -/
def CheckPassword (UserCredentials : Credentials) (pass_cmd : List String) (sess : FtpSession) :
    Option HandlerResult :=
  if pass_cmd.length ≠ 2 then
    some ⟨sess, false, 500, "Bad PASS command"⟩
  else if sess.Authenticated then
    some ⟨sess, false, 500, "Already logged in"⟩
  else if sess.Username ≠ "" then
    match UserCredentials sess.Username with
    | some pw => do
      let given ← pass_cmd[1]?
      if given = pw then
        some ⟨{ sess with Authenticated := true }, true, 230, "OK (login successful)"⟩
      else
        some ⟨{ sess with Authenticated := false }, false, 530, "Bad Password"⟩
    | none => some ⟨sess, false, 530, "Bad User"⟩
  else
    some ⟨sess, false, 530, "Not logged in (need username)"⟩

/-- The function `RetrieveFile`; the body of its `Pull.Url` branch is empty. -/
def RetrieveFile (Configuration : ConfigOptions) (retr_cmd : List String) (sess : FtpSession) :
    Option HandlerResult :=
  if retr_cmd.length ≠ 2 then
    some ⟨sess, false, 500, "Bad RETR command"⟩
  else if !sess.Authenticated then
    some ⟨sess, false, 530, "Not logged in"⟩
  else if Configuration.Pull_Url ≠ "" then
    some ⟨sess, false, 500, "error"⟩
  else
    some ⟨sess, false, 500, "error"⟩

/-- The function `StructureCommand`. -/
def StructureCommand (stru_cmd : List String) (sess : FtpSession) : Option HandlerResult :=
  if stru_cmd.length ≠ 2 then
    some ⟨sess, false, 500, "Bad STRU command"⟩
  else do
    let arg ← stru_cmd[1]?
    if arg ≠ "FILE" then
      some ⟨sess, false, 510, "Only FILE structure supported"⟩
    else
      some ⟨sess, true, 211, "OK"⟩

/-- The function `TypeCommand`. -/
def TypeCommand (type_cmd : List String) (sess : FtpSession) : Option HandlerResult :=
  if type_cmd.length ≠ 2 then
    some ⟨sess, false, 500, "Bad TYPE command"⟩
  else do
    let arg ← type_cmd[1]?
    if arg ≠ "I" then
      some ⟨sess, false, 510, "Only binary mode is supported (I)"⟩
    else
      some ⟨sess, true, 200, "OK (Binary mode)"⟩

/-! ## The dispatcher (`ftp.go` 97-193) -/

/-- What one call of `FtpCommand` leaves behind: the global `Configuration`
(the multi-line writer stores into the slice it is given), the session, the
strings given to `conn.Write` in order, and the returned flag. -/
structure Dispatch where
  config : ConfigOptions
  sess : FtpSession
  written : List String
  result : Bool
deriving DecidableEq

/-- The end of `FtpCommand` after the `switch`: the check against
`FAILURE_LIMIT`. -/
def FtpCommand.finish (Configuration : ConfigOptions) (sess : FtpSession)
    (written : List String) : Dispatch :=
  if sess.Failures ≥ FAILURE_LIMIT then
    ⟨Configuration, sess, written, false⟩
  else
    ⟨Configuration, sess, written, true⟩

/-- The command word `FtpCommand` switches on, with the split line:
`strings.ToUpper(cmd_slice[0])` after `TrimSpace` and `Split`. -/
def FtpCommand.parse (cmd_str : String) : Option (String × List String) := do
  let cmd_str := strings_TrimSpace cmd_str
  let cmd_slice := strings_Split cmd_str
  let first ← cmd_slice[0]?
  some (strings_ToUpper first, cmd_slice)

/-- The `switch cmd` of `FtpCommand` with the check that follows it. A `case` of
a Go `switch` does not fall through, so the empty `case "RETR":` does nothing. -/
def FtpCommand.switch (Configuration : ConfigOptions) (UserCredentials : Credentials)
    (sess : FtpSession) (cmd : String) (cmd_slice : List String) : Option Dispatch := do
  if cmd = "QUIT" then
    some ⟨Configuration, sess, [WriteResponse 221 "Goodbye"], false⟩
  else if cmd = "USER" then
    let r ← AuthUser UserCredentials cmd_slice sess
    let sess :=
      if !r.ok then { r.sess with Failures := wrapInt64 (r.sess.Failures + 1) } else r.sess
    some (FtpCommand.finish Configuration sess [WriteResponse r.code r.msg])
  else if cmd = "PASS" then
    let r ← CheckPassword UserCredentials cmd_slice sess
    let sess :=
      if !r.ok then { r.sess with Failures := wrapInt64 (r.sess.Failures + 1) } else r.sess
    some (FtpCommand.finish Configuration sess [WriteResponse r.code r.msg])
  else if cmd = "REIN" then
    let sess := { sess with Authenticated := false, Username := "" }
    some (FtpCommand.finish Configuration sess [WriteResponse 200 "OK Session Reinitialized"])
  else if cmd = "RETR" then
    some (FtpCommand.finish Configuration sess [])
  else if cmd = "PWD" then
    if sess.Authenticated then
      some (FtpCommand.finish Configuration sess [WriteResponse 200 Configuration.Fakedir_root])
    else
      some (FtpCommand.finish Configuration sess [WriteResponse 500 "Not logged in"])
  else if cmd = "TYPE" then
    if sess.Authenticated then
      let r ← TypeCommand cmd_slice sess
      some (FtpCommand.finish Configuration r.sess [WriteResponse r.code r.msg])
    else
      some (FtpCommand.finish Configuration sess [WriteResponse 500 "Not logged in"])
  else if cmd = "LIST" then
    if sess.Authenticated then
      let (stored, bytes) ← WriteResponseMultiLine 200 Configuration.Fakedir_list
      some (FtpCommand.finish { Configuration with Fakedir_list := stored } sess [bytes])
    else
      some (FtpCommand.finish Configuration sess [WriteResponse 500 "Not logged in"])
  else if cmd = "FEAT" then
    if sess.Authenticated then
      let features := ["Features:", "UTF8", "PASV", "REST STREAM", "End"]
      let (_, bytes) ← WriteResponseMultiLine 211 features
      some (FtpCommand.finish Configuration sess [bytes])
    else
      some (FtpCommand.finish Configuration sess [WriteResponse 500 "Not logged in"])
  else if cmd = "STRU" then
    if sess.Authenticated then
      let r ← StructureCommand cmd_slice sess
      some (FtpCommand.finish Configuration r.sess [WriteResponse r.code r.msg])
    else
      some (FtpCommand.finish Configuration sess [WriteResponse 500 "Not logged in"])
  else if cmd = "SYST" then
    if sess.Authenticated then
      some (FtpCommand.finish Configuration sess [WriteResponse 215 "UNIX"])
    else
      some (FtpCommand.finish Configuration sess [WriteResponse 500 "Not logged in"])
  else if cmd = "STAT" then
    if sess.Authenticated then
      some (FtpCommand.finish Configuration sess [WriteResponse 200 "Rad. Yourself?"])
    else
      some (FtpCommand.finish Configuration sess [WriteResponse 500 "Not logged in"])
  else if cmd = "HELP" then
    some (FtpCommand.finish Configuration sess [WriteResponse 200 Configuration.Help])
  else if cmd = "NOOP" then
    some (FtpCommand.finish Configuration sess [WriteResponse 200 "OK"])
  else if Configuration.Permissive then
    some (FtpCommand.finish Configuration sess [WriteResponse 200 "OK (not supported but faking it)"])
  else
    some (FtpCommand.finish Configuration sess [WriteResponse 500 "Bad Command"])

/-- The function `FtpCommand`. -/
def FtpCommand (Configuration : ConfigOptions) (UserCredentials : Credentials)
    (sess : FtpSession) (cmd_str : String) : Option Dispatch := do
  let (cmd, cmd_slice) ← FtpCommand.parse cmd_str
  FtpCommand.switch Configuration UserCredentials sess cmd cmd_slice

/-! ## The connection handler (`main.go` 160-174) -/

/-- The read loop of `NewConnection` over the results of the successive
`ReadString` calls (`none` is a read error, which is logged and skipped). The
flag of the result tells whether the loop was left (and the connection closed);
it is `false` when the given reads are used up with the loop still running. -/
def NewConnection.loop (UserCredentials : Credentials) :
    ConfigOptions → FtpSession → List (Option String) → Option Dispatch
  | Configuration, sess, [] => some ⟨Configuration, sess, [], false⟩
  | Configuration, sess, none :: reads =>
    NewConnection.loop UserCredentials Configuration sess reads
  | Configuration, sess, some str :: reads => do
    let d ← FtpCommand Configuration UserCredentials sess str
    if !d.result then
      some ⟨d.config, d.sess, d.written, true⟩
    else
      let later ← NewConnection.loop UserCredentials d.config d.sess reads
      some ⟨later.config, later.sess, d.written ++ later.written, later.result⟩

/-- The function `NewConnection`: the banner and the message of the day, then
the read loop. -/
def NewConnection (Configuration : ConfigOptions) (UserCredentials : Credentials)
    (sess : FtpSession) (reads : List (Option String)) : Option Dispatch := do
  let banner := NAME ++ " (" ++ VERSION ++ ")\n"
  let motd := Configuration.Motd ++ "\n"
  let d ← NewConnection.loop UserCredentials Configuration sess reads
  some ⟨d.config, d.sess, banner :: motd :: d.written, d.result⟩

/-! ## Predicates and sample data used in the statements -/

/-- The PASS command with the split line `pass_cmd` fails in session `sess`:
`CheckPassword` returns with `ok = false`. -/
def PassFails (UserCredentials : Credentials) (pass_cmd : List String) (sess : FtpSession) :
    Prop :=
  ∃ r, CheckPassword UserCredentials pass_cmd sess = some r ∧ r.ok = false

/-- The strings written are one single-line response with code 500 or 530. -/
def IsFailureResponse (written : List String) : Prop :=
  ∃ msg, written = ["500 " ++ msg ++ "\r\n"] ∨ written = ["530 " ++ msg ++ "\r\n"]

/-- The configuration used in the examples. -/
def exampleConfig : ConfigOptions :=
  { Pull_Url := "", Permissive := false, Motd := "welcome", Help := "no help",
    Fakedir_root := "/home/ftp", Fakedir_list := ["drwxr-xr-x pub", "-rw-r--r-- readme"] }

/-- The credential store used in the examples: the one user `alice`. -/
def exampleCredentials : Credentials :=
  fun u => if u = "alice" then some "secret" else none

/-- The session that `main` creates for an accepted connection from `host`. -/
def freshSession (host : String) : FtpSession :=
  { Host := host, Authenticated := false, Username := "", Failures := 0,
    Upload_requested := false, Download_requested := false, Passive_mode := false,
    Data_port := 0 }

/-- The session after the handler of USER or PASS, as the dispatcher leaves it. -/
def bumpFailures (r : HandlerResult) : FtpSession :=
  if !r.ok then { r.sess with Failures := wrapInt64 (r.sess.Failures + 1) } else r.sess

/-- The USER command with the split line `user_cmd` fails in session `sess`:
`AuthUser` returns with `ok = false`. -/
def UserFails (UserCredentials : Credentials) (user_cmd : List String) (sess : FtpSession) :
    Prop :=
  ∃ r, AuthUser UserCredentials user_cmd sess = some r ∧ r.ok = false

/-- The causes for which a USER command is rejected, read off the session, the split
line and the credential store: the line does not have exactly one argument (bad
syntax), the session is already authenticated, or the named user is unknown. -/
def UserRejected (UserCredentials : Credentials) (user_cmd : List String) (sess : FtpSession) :
    Prop :=
  user_cmd.length ≠ 2 ∨ sess.Authenticated = true ∨
    ∃ name, user_cmd[1]? = some name ∧ UserCredentials name = none

/-- The causes for which a PASS command is rejected, read off the session, the split
line and the credential store: the line does not have exactly one argument (bad
syntax), the session is already authenticated, no user name is set, the user name is
unknown, or the given password is not the stored one. -/
def PassRejected (UserCredentials : Credentials) (pass_cmd : List String) (sess : FtpSession) :
    Prop :=
  pass_cmd.length ≠ 2 ∨ sess.Authenticated = true ∨ sess.Username = "" ∨
    UserCredentials sess.Username = none ∨
    ∃ pw given, UserCredentials sess.Username = some pw ∧ pass_cmd[1]? = some given ∧
      given ≠ pw

/-- A session that is logged in as `alice` and has failed twice before. -/
def aliceSession : FtpSession :=
  { freshSession "10.0.0.1:4000" with Authenticated := true, Username := "alice", Failures := 2 }

/-- A session in which `USER alice` has succeeded and nothing else has happened. -/
def aliceNamedSession : FtpSession :=
  { freshSession "10.0.0.1:4000" with Username := "alice" }

/-- The lines handled so far on one connection, and the configuration and the session
they lead to: the session is created as `main` creates it, and every line is handled
by one returning call of `FtpCommand`. The relation does not stop at a call that
returns `false`, so it holds for every session that `NewConnection` can reach. -/
inductive SessionRun (UserCredentials : Credentials) (Configuration : ConfigOptions)
    (host : String) : List String → ConfigOptions → FtpSession → Prop
  | accept : SessionRun UserCredentials Configuration host [] Configuration (freshSession host)
  | command (lines : List String) (cfg : ConfigOptions) (sess : FtpSession) (line : String)
      (d : Dispatch) :
      SessionRun UserCredentials Configuration host lines cfg sess →
      FtpCommand cfg UserCredentials sess line = some d →
      SessionRun UserCredentials Configuration host (lines ++ [line]) d.config d.sess

/-! ## The port pool: lemmas and claims C1 to C6 -/

theorem populate_eq (port_start port_end i : Int) (available : Finset Int) :
    PortProvider.populate port_start port_end i available
      = available ∪ Finset.Icc (port_start + i) port_end := by
  induction i, available using PortProvider.populate.induct port_start port_end with
  | case1 i av h ih =>
    rw [PortProvider.populate, if_pos h, ih]
    ext p
    simp only [Finset.mem_union, Finset.mem_insert, Finset.mem_Icc]
    constructor
    · rintro ((rfl | hp) | hp)
      · right; omega
      · left; exact hp
      · right; omega
    · rintro (hp | hp)
      · left; right; exact hp
      · by_cases hpe : p = port_start + i
        · left; left; exact hpe
        · right; omega
  | case2 i av h =>
    rw [PortProvider.populate, if_neg h]
    have : Finset.Icc (port_start + i) port_end = ∅ := Finset.Icc_eq_empty (by omega)
    simp [this]

theorem init_eq (port_start port_end : Int) (h : port_start ≤ port_end) :
    PortProvider.init port_start port_end
      = some { available := Finset.Icc port_start port_end, reserved := ∅ } := by
  unfold PortProvider.init
  rw [if_neg (by omega), populate_eq]
  simp

theorem new_port_nil : PortProvider.new_port [] = 0 := rfl

theorem foldl_last_mem (order : List Int) :
    ∀ a : Int, order ≠ [] → order.foldl (fun _ k => k) a ∈ order := by
  induction order with
  | nil => intro a h; exact absurd rfl h
  | cons x xs ih =>
    intro a _
    simp only [List.foldl_cons]
    by_cases hxs : xs = []
    · subst hxs; simp
    · exact List.mem_cons_of_mem _ (ih x hxs)

theorem new_port_mem {m : Finset Int} {order : List Int} (h : IterationOf m order)
    (hm : m ≠ ∅) : PortProvider.new_port order ∈ m := by
  have hne : order ≠ [] := by
    rintro rfl
    apply hm
    rw [← h.2]; rfl
  have := foldl_last_mem order 0 hne
  rw [← h.2]
  exact List.mem_toFinset.mpr this

theorem new_port_empty {order : List Int} (h : IterationOf ∅ order) :
    PortProvider.new_port order = 0 := by
  have : order = [] := by
    have h2 := h.2
    exact List.toFinset_eq_empty_iff _ |>.mp h2
  subst this; rfl

theorem iterationOf_toList (m : Finset Int) : IterationOf m m.toList :=
  ⟨Finset.nodup_toList m, Finset.toList_toFinset m⟩

/-- A request that finds a key: the key was available. -/
theorem new_port_mem_of_ne_zero {m : Finset Int} {order : List Int} (h : IterationOf m order)
    (hnz : PortProvider.new_port order ≠ 0) : PortProvider.new_port order ∈ m := by
  apply new_port_mem h
  rintro rfl
  exact hnz (new_port_empty h)

theorem handle_separate (port_start port_end : Int) (s : PortState) (order : List Int)
    (req : port_request) (h : s.Separate) :
    (PortProvider.handle port_start port_end s order req).1.Separate := by
  unfold PortProvider.handle
  by_cases ha : req.action = 0
  · rw [if_pos ha]
    by_cases hz : PortProvider.new_port order = 0
    · simpa [hz] using h
    · simp only [hz, if_false]
      intro p hp
      simp only [Finset.mem_erase] at hp
      simp only [Finset.mem_insert, not_or]
      exact ⟨hp.1, h p hp.2⟩
  · rw [if_neg ha]
    by_cases hb : req.action = 1
    · rw [if_pos hb]
      by_cases hr : req.port < port_start ∨ req.port > port_end
      · rw [if_pos hr]; exact h
      · rw [if_neg hr]
        by_cases hm : req.port ∉ s.reserved
        · rw [if_pos hm]; exact h
        · rw [if_neg hm]
          intro p hp
          simp only [Finset.mem_insert] at hp
          simp only [Finset.mem_erase, not_and]
          intro hne
          rcases hp with hp | hp
          · exact absurd hp hne
          · exact h p hp
    · rw [if_neg hb]; exact h

theorem handle_covers (port_start port_end : Int) (s : PortState) (order : List Int)
    (req : port_request) (ho : IterationOf s.available order)
    (h : s.Covers port_start port_end) :
    (PortProvider.handle port_start port_end s order req).1.Covers port_start port_end := by
  unfold PortProvider.handle
  by_cases ha : req.action = 0
  · rw [if_pos ha]
    by_cases hz : PortProvider.new_port order = 0
    · simpa [hz] using h
    · simp only [hz, if_false]
      have hmem := new_port_mem_of_ne_zero ho hz
      intro p
      rw [← h p]
      simp only [Finset.mem_erase, Finset.mem_insert]
      constructor
      · rintro (hp | hp | hp)
        · exact Or.inl hp.2
        · exact Or.inl (hp ▸ hmem)
        · exact Or.inr hp
      · rintro (hp | hp)
        · by_cases hpe : p = PortProvider.new_port order
          · exact Or.inr (Or.inl hpe)
          · exact Or.inl ⟨hpe, hp⟩
        · exact Or.inr (Or.inr hp)
  · rw [if_neg ha]
    by_cases hb : req.action = 1
    · rw [if_pos hb]
      by_cases hr : req.port < port_start ∨ req.port > port_end
      · rw [if_pos hr]; exact h
      · rw [if_neg hr]
        by_cases hm : req.port ∉ s.reserved
        · rw [if_pos hm]; exact h
        · rw [if_neg hm]
          have hm2 : req.port ∈ s.reserved := not_not.mp hm
          intro p
          rw [← h p]
          simp only [Finset.mem_erase, Finset.mem_insert]
          constructor
          · rintro ((hp | hp) | hp)
            · exact Or.inr (hp ▸ hm2)
            · exact Or.inl hp
            · exact Or.inr hp.2
          · rintro (hp | hp)
            · exact Or.inl (Or.inr hp)
            · by_cases hpe : p = req.port
              · exact Or.inl (Or.inl hpe)
              · exact Or.inr ⟨hpe, hp⟩
    · rw [if_neg hb]; exact h

theorem run_separate {port_start port_end : Int} {s s_end : PortState}
    {trace : List (port_request × Option Int)}
    (hrun : PortProvider.Run port_start port_end s trace s_end) :
    s.Separate → s_end.Separate := by
  induction hrun with
  | done s => exact id
  | turn s order req rest s_end _ _ ih =>
    intro h
    exact ih (handle_separate port_start port_end s order req h)

theorem run_covers {port_start port_end : Int} {s s_end : PortState}
    {trace : List (port_request × Option Int)}
    (hrun : PortProvider.Run port_start port_end s trace s_end) :
    s.Covers port_start port_end → s_end.Covers port_start port_end := by
  induction hrun with
  | done s => exact id
  | turn s order req rest s_end ho _ ih =>
    intro h
    exact ih (handle_covers port_start port_end s order req ho h)

theorem init_separate {port_start port_end : Int} {s0 : PortState}
    (h : PortProvider.init port_start port_end = some s0) : s0.Separate := by
  unfold PortProvider.init at h
  split at h
  · exact absurd h (by simp)
  · cases h
    intro p _
    simp

theorem init_covers {port_start port_end : Int} {s0 : PortState}
    (h : PortProvider.init port_start port_end = some s0) : s0.Covers port_start port_end := by
  by_cases hle : port_start ≤ port_end
  · rw [init_eq _ _ hle] at h
    cases h
    intro p
    simp
  · unfold PortProvider.init at h
    rw [if_pos (by omega)] at h
    exact absurd h (by simp)

/-- A step that a concrete run is built from, with the result of `handle` named. -/
theorem run_turn_eq {port_start port_end : Int} {s s_end : PortState} (order : List Int)
    (s1 : PortState) {req : port_request} {out : Option Int}
    {rest : List (port_request × Option Int)}
    (ho : IterationOf s.available order)
    (hh : PortProvider.handle port_start port_end s order req = (s1, out))
    (hrest : PortProvider.Run port_start port_end s1 rest s_end) :
    PortProvider.Run port_start port_end s ((req, out) :: rest) s_end := by
  have := PortProvider.Run.turn s order req rest s_end ho (by rw [hh]; exact hrest)
  rw [hh] at this
  exact this

/-- Claim C1. Port pool invariant: for `port_start ≤ port_end` the pool is seeded, and in
every state reached by `PortProvider(port_start, port_end)` after any finite sequence
of request, release (of any integer) and bad-action messages, the available and the
reserved map have no key in common, and a port is a key of one of them exactly when
it lies in `[port_start, port_end]`. -/
theorem pool_invariant (port_start port_end : Int) (hle : port_start ≤ port_end) :
    (∃ s0, PortProvider.init port_start port_end = some s0) ∧
    ∀ s : PortState, PortProvider.Reachable port_start port_end s →
      s.available ∩ s.reserved = ∅ ∧
      ∀ p : Int, (p ∈ s.available ∨ p ∈ s.reserved) ↔ (port_start ≤ p ∧ p ≤ port_end) := by
  refine ⟨⟨_, init_eq port_start port_end hle⟩, ?_⟩
  intro s hs
  obtain ⟨s0, trace, h0, hrun⟩ := hs
  have hsep := run_separate hrun (init_separate h0)
  have hcov := run_covers hrun (init_covers h0)
  refine ⟨?_, hcov⟩
  ext p
  simp only [Finset.mem_inter, Finset.not_mem_empty, iff_false, not_and]
  exact hsep p

/-- Witness of claim C1 at a concrete input. -/
theorem pool_invariant_witness :
    (3 : Int) ≤ 4 ∧
    PortProvider.Reachable 3 4 { available := {3}, reserved := {4} } ∧
    (({3} : Finset Int) ∩ {4} = ∅ ∧
      ∀ p : Int, (p ∈ ({3} : Finset Int) ∨ p ∈ ({4} : Finset Int)) ↔ (3 ≤ p ∧ p ≤ 4)) :=
  have hr : PortProvider.Reachable 3 4 { available := {3}, reserved := {4} } :=
    ⟨{ available := {3, 4}, reserved := ∅ },
      [(PortProvider.request, some 4), (PortProvider.release 9, none),
        (⟨7, 3⟩, none)],
      by simp [PortProvider.init, PortProvider.populate]; decide,
      run_turn_eq [3, 4] ⟨{3}, {4}⟩ (by decide) (by decide)
        (run_turn_eq [3] ⟨{3}, {4}⟩ (by decide) (by decide)
          (run_turn_eq [3] ⟨{3}, {4}⟩ (by decide) (by decide) (PortProvider.Run.done _)))⟩
  ⟨by decide, hr, (pool_invariant 3 4 (by decide)).2 _ hr⟩

theorem run_cons_inv {port_start port_end : Int} {s s_end : PortState}
    {e : port_request × Option Int} {rest : List (port_request × Option Int)}
    (h : PortProvider.Run port_start port_end s (e :: rest) s_end) :
    ∃ order, IterationOf s.available order ∧
      (PortProvider.handle port_start port_end s order e.1).2 = e.2 ∧
      PortProvider.Run port_start port_end
        (PortProvider.handle port_start port_end s order e.1).1 rest s_end := by
  generalize ht : e :: rest = t at h
  cases h with
  | done => cases ht
  | turn s order req rest2 s_end ho hrest =>
    injection ht with h1 h2
    subst h1 h2
    exact ⟨order, ho, rfl, hrest⟩

theorem handle_request_empty (port_start port_end : Int) (s : PortState) (order : List Int)
    (p : Int) (ho : IterationOf s.available order) (he : s.available = ∅) :
    PortProvider.handle port_start port_end s order ⟨0, p⟩ = (s, some (-1)) := by
  have hz : PortProvider.new_port order = 0 := new_port_empty (he ▸ ho)
  simp [PortProvider.handle, hz]

theorem handle_request_grant (port_start port_end : Int) (s : PortState) (order : List Int)
    (p : Int) (ho : IterationOf s.available order) (hne : s.available ≠ ∅)
    (h0 : (0 : Int) ∉ s.available) :
    PortProvider.new_port order ∈ s.available ∧
    PortProvider.handle port_start port_end s order ⟨0, p⟩
      = ({ available := s.available.erase (PortProvider.new_port order),
           reserved := insert (PortProvider.new_port order) s.reserved },
         some (PortProvider.new_port order)) := by
  have hm := new_port_mem ho hne
  have hz : PortProvider.new_port order ≠ 0 := fun h => h0 (h ▸ hm)
  exact ⟨hm, by simp [PortProvider.handle, hz]⟩

theorem requests_distinct (port_start port_end : Int) (outs : List Int) :
    ∀ s s_end : PortState,
      PortProvider.Run port_start port_end s (PortProvider.requests outs) s_end →
      (0 : Int) ∉ s.available → outs.length ≤ s.available.card →
      outs.Nodup ∧ (∀ p ∈ outs, p ∈ s.available) ∧
        s_end.available.card = s.available.card - outs.length := by
  induction outs with
  | nil =>
    intro s s_end hrun _ _
    cases hrun
    simp
  | cons p outs ih =>
    intro s s_end hrun h0 hlen
    obtain ⟨order, ho, hout, hrest⟩ := run_cons_inv hrun
    have hne : s.available ≠ ∅ := by
      intro he
      rw [he] at hlen
      simp at hlen
    obtain ⟨hm, hh⟩ := handle_request_grant port_start port_end s order 0 ho hne h0
    change (PortProvider.handle port_start port_end s order ⟨0, 0⟩).2 = some p at hout
    change PortProvider.Run port_start port_end
      (PortProvider.handle port_start port_end s order ⟨0, 0⟩).1 _ s_end at hrest
    rw [hh] at hout hrest
    simp only [Option.some.injEq] at hout
    rw [hout] at hrest hm
    have hcard : (s.available.erase p).card = s.available.card - 1 :=
      Finset.card_erase_of_mem hm
    have hlen2 : outs.length ≤ (s.available.erase p).card := by
      rw [hcard]; simp only [List.length_cons] at hlen; omega
    obtain ⟨hnd, hmem, hc⟩ := ih _ s_end hrest
      (fun h => h0 (Finset.mem_of_mem_erase h)) hlen2
    refine ⟨?_, ?_, ?_⟩
    · refine List.nodup_cons.mpr ⟨?_, hnd⟩
      intro hp
      exact (Finset.not_mem_erase p s.available) (hmem p hp)
    · intro q hq
      rcases List.mem_cons.mp hq with rfl | hq
      · exact hm
      · exact Finset.mem_of_mem_erase (hmem q hq)
    · rw [hc]
      change (s.available.erase p).card - outs.length = _
      rw [hcard]; simp only [List.length_cons]; omega

theorem requests_exist (port_start port_end : Int) (n : Nat) :
    ∀ s : PortState, ∃ outs s_end,
      PortProvider.Run port_start port_end s (PortProvider.requests outs) s_end ∧
      outs.length = n := by
  induction n with
  | zero => intro s; exact ⟨[], s, PortProvider.Run.done s, rfl⟩
  | succ n ih =>
    intro s
    have ho := iterationOf_toList s.available
    have hout : ∃ x, (PortProvider.handle port_start port_end s s.available.toList
        PortProvider.request).2 = some x := by
      unfold PortProvider.handle PortProvider.request
      simp only [if_true]
      split <;> exact ⟨_, rfl⟩
    obtain ⟨x, hx⟩ := hout
    obtain ⟨outs, s_end, hrun, hlen⟩ := ih
      (PortProvider.handle port_start port_end s s.available.toList PortProvider.request).1
    refine ⟨x :: outs, s_end, ?_, by simp [hlen]⟩
    have := PortProvider.Run.turn s s.available.toList PortProvider.request _ s_end ho hrun
    rw [hx] at this
    exact this

/-- Claim C2. For every range of port numbers `port_start ≤ port_end` (ports lie in
`1 .. 65535`; `main` starts the pool with 20..20 or with a range inside 1024..65535):
from the freshly seeded pool, `port_end - port_start + 1` consecutive requests can be
made; whatever order the pool picks ports in, they return pairwise distinct ports of
the range, none of them -1, and the request after them returns -1. On such a range no
sum of the seeding loop leaves the machine word. -/
theorem grants_whole_range (port_start port_end : Int) (s0 : PortState)
    (hle : port_start ≤ port_end) (hlo : 1 ≤ port_start) (hhi : port_end ≤ 65535)
    (hs0 : PortProvider.init port_start port_end = some s0) :
    (∃ outs s_end, PortProvider.Run port_start port_end s0 (PortProvider.requests outs) s_end ∧
        (outs.length : Int) = port_end - port_start + 1) ∧
    (∀ outs s_end, PortProvider.Run port_start port_end s0 (PortProvider.requests outs) s_end →
      (outs.length : Int) = port_end - port_start + 1 →
      outs.Nodup ∧ (∀ p ∈ outs, p ≠ -1 ∧ port_start ≤ p ∧ p ≤ port_end) ∧
      ∀ order, IterationOf s_end.available order →
        (PortProvider.handle port_start port_end s_end order PortProvider.request).2
          = some (-1)) ∧
    (∀ i : Int, 0 ≤ i → port_start + i ≤ port_end + 1 →
      wrapInt64 (i + 1) = i + 1 ∧ wrapInt64 (port_start + i) = port_start + i) := by
  refine ⟨?_, ?_, ?_⟩
  · rw [init_eq _ _ hle] at hs0
    cases hs0
    obtain ⟨outs, s_end, hrun, hlen⟩ :=
      requests_exist port_start port_end (port_end + 1 - port_start).toNat
        ⟨Finset.Icc port_start port_end, ∅⟩
    exact ⟨outs, s_end, hrun, by rw [hlen]; omega⟩
  · rw [init_eq _ _ hle] at hs0
    cases hs0
    have hcard : (Finset.Icc port_start port_end).card = (port_end + 1 - port_start).toNat :=
      Int.card_Icc _ _
    intro outs s_end hrun hlen
    have h0 : (0 : Int) ∉ Finset.Icc port_start port_end := by
      simp only [Finset.mem_Icc]; omega
    have hl : outs.length ≤ (Finset.Icc port_start port_end).card := by
      rw [hcard]; omega
    obtain ⟨hnd, hmem, hc⟩ := requests_distinct port_start port_end outs _ s_end hrun h0 hl
    refine ⟨hnd, ?_, ?_⟩
    · intro p hp
      have := hmem p hp
      simp only [Finset.mem_Icc] at this
      exact ⟨by omega, this.1, this.2⟩
    · intro order ho
      have he : s_end.available = ∅ := by
        apply Finset.card_eq_zero.mp
        rw [hc]
        change (Finset.Icc port_start port_end).card - outs.length = 0
        rw [hcard]; omega
      have := handle_request_empty port_start port_end s_end order 0 ho he
      change PortProvider.handle port_start port_end s_end order ⟨0, 0⟩ = _ at this
      change (PortProvider.handle port_start port_end s_end order ⟨0, 0⟩).2 = _
      rw [this]
  · intro i hi hsum
    unfold wrapInt64
    constructor <;> omega

/-- Witness of claim C2 at a concrete input. -/
theorem grants_whole_range_witness :
    ((20 : Int) ≤ 21 ∧ (1 : Int) ≤ 20 ∧ (21 : Int) ≤ 65535 ∧
      PortProvider.init 20 21 = some ⟨{20, 21}, ∅⟩) ∧
    PortProvider.Run 20 21 ⟨{20, 21}, ∅⟩ (PortProvider.requests [20, 21]) ⟨∅, {21, 20}⟩ ∧
    ((∃ outs s_end, PortProvider.Run 20 21 ⟨{20, 21}, ∅⟩ (PortProvider.requests outs) s_end ∧
        (outs.length : Int) = 21 - 20 + 1) ∧
    (∀ outs s_end, PortProvider.Run 20 21 ⟨{20, 21}, ∅⟩ (PortProvider.requests outs) s_end →
      (outs.length : Int) = 21 - 20 + 1 →
      outs.Nodup ∧ (∀ p ∈ outs, p ≠ -1 ∧ 20 ≤ p ∧ p ≤ 21) ∧
      ∀ order, IterationOf s_end.available order →
        (PortProvider.handle 20 21 s_end order PortProvider.request).2 = some (-1)) ∧
    (∀ i : Int, 0 ≤ i → 20 + i ≤ 21 + 1 →
      wrapInt64 (i + 1) = i + 1 ∧ wrapInt64 (20 + i) = 20 + i)) :=
  have hinit : PortProvider.init 20 21 = some ⟨{20, 21}, ∅⟩ := by
    simp [PortProvider.init, PortProvider.populate]; decide
  ⟨⟨by decide, by decide, by decide, hinit⟩,
    run_turn_eq [21, 20] ⟨{21}, {20}⟩ (by decide) (by decide)
      (run_turn_eq [21] ⟨∅, {21, 20}⟩ (by decide) (by decide) (PortProvider.Run.done _)),
    grants_whole_range 20 21 ⟨{20, 21}, ∅⟩ (by decide) (by decide) (by decide) hinit⟩

/-- A request in a state whose available map holds neither the key 0 nor the key -1. -/
theorem handle_request_spec (port_start port_end : Int) (s : PortState) (order : List Int)
    (ho : IterationOf s.available order)
    (h0 : (0 : Int) ∉ s.available) (h1 : (-1 : Int) ∉ s.available) :
    ((PortProvider.handle port_start port_end s order PortProvider.request).2 = some (-1)
        ↔ s.available = ∅) ∧
    (s.available = ∅ →
      (PortProvider.handle port_start port_end s order PortProvider.request).1 = s) ∧
    (s.available ≠ ∅ → ∃ p : Int,
      (PortProvider.handle port_start port_end s order PortProvider.request).2 = some p ∧
      p ∈ s.available ∧
      p ∈ (PortProvider.handle port_start port_end s order PortProvider.request).1.reserved ∧
      p ∉ (PortProvider.handle port_start port_end s order PortProvider.request).1.available ∧
      ∀ q : Int, q ≠ p →
        ((q ∈ (PortProvider.handle port_start port_end s order
              PortProvider.request).1.available ↔ q ∈ s.available) ∧
         (q ∈ (PortProvider.handle port_start port_end s order
              PortProvider.request).1.reserved ↔ q ∈ s.reserved))) := by
  change ((PortProvider.handle port_start port_end s order ⟨0, 0⟩).2 = some (-1)
        ↔ s.available = ∅) ∧
    (s.available = ∅ →
      (PortProvider.handle port_start port_end s order ⟨0, 0⟩).1 = s) ∧
    (s.available ≠ ∅ → ∃ p : Int,
      (PortProvider.handle port_start port_end s order ⟨0, 0⟩).2 = some p ∧
      p ∈ s.available ∧
      p ∈ (PortProvider.handle port_start port_end s order ⟨0, 0⟩).1.reserved ∧
      p ∉ (PortProvider.handle port_start port_end s order ⟨0, 0⟩).1.available ∧
      ∀ q : Int, q ≠ p →
        ((q ∈ (PortProvider.handle port_start port_end s order ⟨0, 0⟩).1.available
            ↔ q ∈ s.available) ∧
         (q ∈ (PortProvider.handle port_start port_end s order ⟨0, 0⟩).1.reserved
            ↔ q ∈ s.reserved)))
  by_cases he : s.available = ∅
  · rw [handle_request_empty port_start port_end s order 0 ho he]
    exact ⟨⟨fun _ => he, fun _ => rfl⟩, fun _ => rfl, fun hne => absurd he hne⟩
  · obtain ⟨hm, hh⟩ := handle_request_grant port_start port_end s order 0 ho he h0
    rw [hh]
    refine ⟨⟨?_, fun h => absurd h he⟩, fun h => absurd h he, fun _ => ?_⟩
    · intro h
      simp only [Option.some.injEq] at h
      exact absurd (h ▸ hm) h1
    · refine ⟨PortProvider.new_port order, rfl, hm, ?_, ?_, ?_⟩
      · simp
      · simp
      · intro q hq
        simp [hq]

/-- Claim C3. For every pool state (every state that a pool of port numbers, seeded with
`1 ≤ port_start`, reaches) and every visiting order of its available map: a request
returns -1 if and only if the available map is empty, and then the state is unchanged;
otherwise it returns a port `p` that was available, and afterwards `p` is reserved and
not available while the membership of every other port is unchanged. -/
theorem request_spec (port_start port_end : Int) (s : PortState) (order : List Int)
    (hlo : 1 ≤ port_start) (hs : PortProvider.Reachable port_start port_end s)
    (ho : IterationOf s.available order) :
    ((PortProvider.handle port_start port_end s order PortProvider.request).2 = some (-1)
        ↔ s.available = ∅) ∧
    (s.available = ∅ →
      (PortProvider.handle port_start port_end s order PortProvider.request).1 = s) ∧
    (s.available ≠ ∅ → ∃ p : Int,
      (PortProvider.handle port_start port_end s order PortProvider.request).2 = some p ∧
      p ∈ s.available ∧
      p ∈ (PortProvider.handle port_start port_end s order PortProvider.request).1.reserved ∧
      p ∉ (PortProvider.handle port_start port_end s order PortProvider.request).1.available ∧
      ∀ q : Int, q ≠ p →
        ((q ∈ (PortProvider.handle port_start port_end s order
              PortProvider.request).1.available ↔ q ∈ s.available) ∧
         (q ∈ (PortProvider.handle port_start port_end s order
              PortProvider.request).1.reserved ↔ q ∈ s.reserved))) := by
  obtain ⟨s0, trace, h0, hrun⟩ := hs
  have hcov := run_covers hrun (init_covers h0)
  have hpos : ∀ p, p ∈ s.available → 1 ≤ p := by
    intro p hp
    have := (hcov p).mp (Or.inl hp)
    omega
  have hzero : (0 : Int) ∉ s.available := fun h => by
    have := hpos 0 h
    omega
  have hneg : (-1 : Int) ∉ s.available := fun h => by
    have := hpos (-1) h
    omega
  exact handle_request_spec port_start port_end s order ho hzero hneg

/-- Witness of claim C3 at a concrete input. -/
theorem request_spec_witness :
    ((1 : Int) ≤ 20 ∧ PortProvider.Reachable 20 21 ⟨{20, 21}, ∅⟩ ∧
      IterationOf ({20, 21} : Finset Int) [21, 20]) ∧
    PortProvider.handle 20 21 ⟨{20, 21}, ∅⟩ [21, 20] PortProvider.request
      = (⟨{21}, {20}⟩, some 20) ∧
    (((PortProvider.handle 20 21 ⟨{20, 21}, ∅⟩ [21, 20] PortProvider.request).2 = some (-1)
        ↔ ({20, 21} : Finset Int) = ∅) ∧
    (({20, 21} : Finset Int) = ∅ →
      (PortProvider.handle 20 21 ⟨{20, 21}, ∅⟩ [21, 20] PortProvider.request).1
        = ⟨{20, 21}, ∅⟩) ∧
    (({20, 21} : Finset Int) ≠ ∅ → ∃ p : Int,
      (PortProvider.handle 20 21 ⟨{20, 21}, ∅⟩ [21, 20] PortProvider.request).2 = some p ∧
      p ∈ ({20, 21} : Finset Int) ∧
      p ∈ (PortProvider.handle 20 21 ⟨{20, 21}, ∅⟩ [21, 20] PortProvider.request).1.reserved ∧
      p ∉ (PortProvider.handle 20 21 ⟨{20, 21}, ∅⟩ [21, 20] PortProvider.request).1.available ∧
      ∀ q : Int, q ≠ p →
        ((q ∈ (PortProvider.handle 20 21 ⟨{20, 21}, ∅⟩ [21, 20]
              PortProvider.request).1.available ↔ q ∈ ({20, 21} : Finset Int)) ∧
         (q ∈ (PortProvider.handle 20 21 ⟨{20, 21}, ∅⟩ [21, 20]
              PortProvider.request).1.reserved ↔ q ∈ (∅ : Finset Int))))) :=
  have hr : PortProvider.Reachable 20 21 ⟨{20, 21}, ∅⟩ :=
    ⟨⟨{20, 21}, ∅⟩, [], by simp [PortProvider.init, PortProvider.populate]; decide,
      PortProvider.Run.done _⟩
  ⟨⟨by decide, hr, by decide⟩, by decide,
    request_spec 20 21 ⟨{20, 21}, ∅⟩ [21, 20] (by decide) hr (by decide)⟩

/-- Claim C4. A release of a port outside `[port_start, port_end]`, or of a port that is
not reserved, leaves both maps as they were and sends nothing; so does every
message whose action is neither 0 (request) nor 1 (release). The handler is a
total function: it has no failing path. -/
theorem release_rejected (port_start port_end : Int) (s : PortState) (order : List Int) :
    (∀ p : Int, (p < port_start ∨ port_end < p ∨ p ∉ s.reserved) →
      PortProvider.handle port_start port_end s order (PortProvider.release p) = (s, none)) ∧
    (∀ req : port_request, req.action ≠ 0 → req.action ≠ 1 →
      PortProvider.handle port_start port_end s order req = (s, none)) := by
  constructor
  · intro p hp
    unfold PortProvider.handle PortProvider.release
    simp only [one_ne_zero, if_false, if_true]
    by_cases hr : p < port_start ∨ p > port_end
    · rw [if_pos hr]
    · rw [if_neg hr]
      have : p ∉ s.reserved := by
        rcases hp with hp | hp | hp
        · exact absurd (Or.inl hp) hr
        · exact absurd (Or.inr hp) hr
        · exact hp
      rw [if_pos this]
  · intro req h0 h1
    unfold PortProvider.handle
    rw [if_neg h0, if_neg h1]

/-- Witness of claim C4 at a concrete input. -/
theorem release_rejected_witness :
    (((9 : Int) < 3 ∨ (4 : Int) < 9 ∨ (9 : Int) ∉ ({4} : Finset Int)) ∧
      PortProvider.handle 3 4 ⟨{3}, {4}⟩ [3] (PortProvider.release 9) = (⟨{3}, {4}⟩, none)) ∧
    (((3 : Int) < 3 ∨ (4 : Int) < 3 ∨ (3 : Int) ∉ ({4} : Finset Int)) ∧
      PortProvider.handle 3 4 ⟨{3}, {4}⟩ [3] (PortProvider.release 3) = (⟨{3}, {4}⟩, none)) ∧
    (((7 : Int) ≠ 0 ∧ (7 : Int) ≠ 1) ∧
      PortProvider.handle 3 4 ⟨{3}, {4}⟩ [3] ⟨7, 4⟩ = (⟨{3}, {4}⟩, none)) :=
  ⟨⟨by decide, (release_rejected 3 4 ⟨{3}, {4}⟩ [3]).1 9 (by decide)⟩,
   ⟨by decide, (release_rejected 3 4 ⟨{3}, {4}⟩ [3]).1 3 (by decide)⟩,
   ⟨by decide, (release_rejected 3 4 ⟨{3}, {4}⟩ [3]).2 ⟨7, 4⟩ (by decide) (by decide)⟩⟩

theorem handle_zero_not_reserved (port_start port_end : Int) (s : PortState)
    (order : List Int) (req : port_request) (h : (0 : Int) ∉ s.reserved) :
    (0 : Int) ∉ (PortProvider.handle port_start port_end s order req).1.reserved := by
  unfold PortProvider.handle
  by_cases ha : req.action = 0
  · rw [if_pos ha]
    by_cases hz : PortProvider.new_port order = 0
    · simpa [hz] using h
    · simp only [hz, if_false, Finset.mem_insert, not_or]
      exact ⟨fun h0 => hz h0.symm, h⟩
  · rw [if_neg ha]
    split
    · split
      · exact h
      · split
        · exact h
        · exact fun hm => h (Finset.mem_of_mem_erase hm)
    · exact h

theorem run_zero_not_reserved {port_start port_end : Int} {s s_end : PortState}
    {trace : List (port_request × Option Int)}
    (hrun : PortProvider.Run port_start port_end s trace s_end) :
    (0 : Int) ∉ s.reserved → (0 : Int) ∉ s_end.reserved := by
  induction hrun with
  | done s => exact id
  | turn s order req rest s_end _ _ ih =>
    intro h
    exact ih (handle_zero_not_reserved port_start port_end s order req h)

theorem reachable_zero_not_reserved {port_start port_end : Int} {s : PortState}
    (hs : PortProvider.Reachable port_start port_end s) : (0 : Int) ∉ s.reserved := by
  obtain ⟨s0, trace, h0, hrun⟩ := hs
  apply run_zero_not_reserved hrun
  unfold PortProvider.init at h0
  split at h0
  · exact absurd h0 (by simp)
  · cases h0; simp

theorem iterationOf_singleton {p : Int} {order : List Int}
    (ho : IterationOf {p} order) : PortProvider.new_port order = p := by
  have := new_port_mem ho (Finset.singleton_ne_empty p)
  exact Finset.mem_singleton.mp this

/-- Claim C5. In a reachable state in which the pool is exhausted (no port is available, so
every port of the range is granted), releasing any granted port `p` makes exactly one
grant possible again: the next request returns `p`, and the request after that
returns -1. -/
theorem release_after_exhaustion (port_start port_end : Int) (s : PortState) (p : Int)
    (order : List Int) (hs : PortProvider.Reachable port_start port_end s)
    (hex : s.available = ∅) (hp : p ∈ s.reserved) :
    ∀ order1, IterationOf
        (PortProvider.handle port_start port_end s order
          (PortProvider.release p)).1.available order1 →
      (PortProvider.handle port_start port_end
        (PortProvider.handle port_start port_end s order (PortProvider.release p)).1
        order1 PortProvider.request).2 = some p ∧
      ∀ order2, IterationOf
          (PortProvider.handle port_start port_end
            (PortProvider.handle port_start port_end s order (PortProvider.release p)).1
            order1 PortProvider.request).1.available order2 →
        (PortProvider.handle port_start port_end
          (PortProvider.handle port_start port_end
            (PortProvider.handle port_start port_end s order (PortProvider.release p)).1
            order1 PortProvider.request).1
          order2 PortProvider.request).2 = some (-1) := by
  have hrange : port_start ≤ p ∧ p ≤ port_end := by
    obtain ⟨s0, trace, h0, hrun⟩ := hs
    exact (run_covers hrun (init_covers h0) p).mp (Or.inr hp)
  have hp0 : p ≠ 0 := fun h => reachable_zero_not_reserved hs (h ▸ hp)
  have hrel : PortProvider.handle port_start port_end s order (PortProvider.release p)
      = (⟨{p}, s.reserved.erase p⟩, none) := by
    unfold PortProvider.handle PortProvider.release
    simp only [one_ne_zero, if_false, if_true]
    rw [if_neg (by omega), if_neg (not_not.mpr hp), hex]
    rfl
  rw [hrel]
  intro order1 ho1
  have hnp : PortProvider.new_port order1 = p := iterationOf_singleton ho1
  have hreq : PortProvider.handle port_start port_end ⟨{p}, s.reserved.erase p⟩ order1
      PortProvider.request = (⟨∅, insert p (s.reserved.erase p)⟩, some p) := by
    unfold PortProvider.handle PortProvider.request
    simp [hnp, hp0]
  rw [hreq]
  refine ⟨rfl, ?_⟩
  intro order2 ho2
  have := handle_request_empty port_start port_end ⟨∅, insert p (s.reserved.erase p)⟩
    order2 0 ho2 rfl
  change (PortProvider.handle port_start port_end ⟨∅, insert p (s.reserved.erase p)⟩
    order2 ⟨0, 0⟩).2 = _
  rw [this]

theorem run_append_inv {port_start port_end : Int}
    (t1 : List (port_request × Option Int)) :
    ∀ (s s_end : PortState) (t2 : List (port_request × Option Int)),
      PortProvider.Run port_start port_end s (t1 ++ t2) s_end →
      ∃ s_mid, PortProvider.Run port_start port_end s t1 s_mid ∧
        PortProvider.Run port_start port_end s_mid t2 s_end := by
  induction t1 with
  | nil => intro s s_end t2 h; exact ⟨s, PortProvider.Run.done s, h⟩
  | cons e t1 ih =>
    intro s s_end t2 h
    obtain ⟨order, ho, hout, hrest⟩ := run_cons_inv h
    obtain ⟨s_mid, h1, h2⟩ := ih _ s_end t2 hrest
    refine ⟨s_mid, ?_, h2⟩
    have := PortProvider.Run.turn s order e.1 t1 s_mid ho h1
    rw [hout] at this
    exact this

/-- A reply other than -1 to a request names a port that was available. -/
theorem handle_request_out_mem (port_start port_end : Int) (s : PortState)
    (order : List Int) (req : port_request) (p : Int)
    (ho : IterationOf s.available order) (ha : req.action = 0)
    (hout : (PortProvider.handle port_start port_end s order req).2 = some p)
    (hp : p ≠ -1) :
    p ∈ s.available ∧ p ∈ (PortProvider.handle port_start port_end s order req).1.reserved := by
  unfold PortProvider.handle at hout ⊢
  rw [if_pos ha] at hout ⊢
  by_cases hz : PortProvider.new_port order = 0
  · simp only [hz, if_true, Option.some.injEq] at hout
    exact absurd hout.symm hp
  · simp only [hz, if_false, Option.some.injEq] at hout ⊢
    subst hout
    exact ⟨new_port_mem_of_ne_zero ho hz, by simp⟩

/-- While no release of `p` is handled, a reserved port `p` stays reserved and no
request returns it. -/
theorem run_keeps_reserved {port_start port_end : Int} {s s_end : PortState}
    {trace : List (port_request × Option Int)} (p : Int)
    (hrun : PortProvider.Run port_start port_end s trace s_end) :
    s.Separate → p ∈ s.reserved → p ≠ -1 →
    (∀ e ∈ trace, ¬ (e.1.action = 1 ∧ e.1.port = p)) →
    p ∈ s_end.reserved ∧ s_end.Separate ∧ ∀ e ∈ trace, e.1.action = 0 → e.2 ≠ some p := by
  induction hrun with
  | done s => intro hsep hp _ _; exact ⟨hp, hsep, by simp⟩
  | turn s order req rest s_end ho _ ih =>
    intro hsep hp hp1 hno
    have hsep2 := handle_separate port_start port_end s order req hsep
    have hnorel : ¬ (req.action = 1 ∧ req.port = p) := hno _ (List.mem_cons_self _ _)
    have hkeep : p ∈ (PortProvider.handle port_start port_end s order req).1.reserved := by
      unfold PortProvider.handle
      by_cases ha : req.action = 0
      · rw [if_pos ha]
        by_cases hz : PortProvider.new_port order = 0
        · simpa [hz] using hp
        · simp only [hz, if_false]
          exact Finset.mem_insert_of_mem hp
      · rw [if_neg ha]
        split
        · split
          · exact hp
          · split
            · exact hp
            · rename_i hb _ _
              exact Finset.mem_erase.mpr ⟨fun h => hnorel ⟨hb, h.symm⟩, hp⟩
        · exact hp
    obtain ⟨h1, h2, h3⟩ := ih hsep2 hkeep hp1
      (fun e he => hno e (List.mem_cons_of_mem _ he))
    refine ⟨h1, h2, ?_⟩
    intro e he ha
    rcases List.mem_cons.mp he with rfl | he
    · intro hout
      have := handle_request_out_mem port_start port_end s order req p ho ha hout hp1
      exact hsep p this.1 hp
    · exact h3 e he ha

/-- Claim C6. In every finite sequence of messages that the worker of
`PortProvider(port_start, port_end)` handles one at a time from the freshly seeded
pool: when a request is answered with a port `p` (a number other than the "no port"
reply -1) and a later request is answered with the same `p`, a release of `p` was
handled between the two. -/
theorem no_double_grant (port_start port_end : Int) (s0 s_end : PortState)
    (t1 t2 t3 : List (port_request × Option Int)) (r1 r2 : port_request) (p : Int)
    (hs0 : PortProvider.init port_start port_end = some s0)
    (hrun : PortProvider.Run port_start port_end s0
      (t1 ++ (r1, some p) :: (t2 ++ (r2, some p) :: t3)) s_end)
    (h1 : r1.action = 0) (h2 : r2.action = 0) (hp : p ≠ -1) :
    ∃ e ∈ t2, e.1.action = 1 ∧ e.1.port = p := by
  by_contra hcon
  have hno : ∀ e ∈ t2 ++ [(r2, some p)], ¬ (e.1.action = 1 ∧ e.1.port = p) := by
    intro e he
    rcases List.mem_append.mp he with he | he
    · exact fun h => hcon ⟨e, he, h⟩
    · simp only [List.mem_singleton] at he
      subst he
      intro h
      rw [h2] at h
      exact absurd h.1 (by decide)
  obtain ⟨s1, hrun1, hrest⟩ := run_append_inv t1 s0 s_end _ hrun
  have hsep1 := run_separate hrun1 (init_separate hs0)
  obtain ⟨order, ho, hout, hrest2⟩ := run_cons_inv hrest
  have hgr := handle_request_out_mem port_start port_end s1 order r1 p ho h1 hout hp
  have hsep2 := handle_separate port_start port_end s1 order r1 hsep1
  have hrest3 : PortProvider.Run port_start port_end
      (PortProvider.handle port_start port_end s1 order r1).1
      ((t2 ++ [(r2, some p)]) ++ t3) s_end := by
    simpa using hrest2
  obtain ⟨s2, hrun2, _⟩ := run_append_inv _ _ s_end t3 hrest3
  have := (run_keeps_reserved p hrun2 hsep2 hgr.2 hp hno).2.2 (r2, some p)
    (by simp) h2
  exact this rfl

/-- Witness of claim C6 at a concrete input. -/
theorem no_double_grant_witness :
    (PortProvider.init 20 21 = some ⟨{20, 21}, ∅⟩ ∧
      PortProvider.Run 20 21 ⟨{20, 21}, ∅⟩
        ([] ++ (PortProvider.request, some 20) ::
          ([(PortProvider.request, some 21), (PortProvider.release 20, none)] ++
            (PortProvider.request, some 20) :: [])) ⟨∅, {20, 21}⟩ ∧
      PortProvider.request.action = 0 ∧ (20 : Int) ≠ -1) ∧
    ∃ e ∈ [(PortProvider.request, some (21 : Int)), (PortProvider.release 20, none)],
      e.1.action = 1 ∧ e.1.port = 20 :=
  have hinit : PortProvider.init 20 21 = some ⟨{20, 21}, ∅⟩ := by
    simp [PortProvider.init, PortProvider.populate]; decide
  have hrun : PortProvider.Run 20 21 ⟨{20, 21}, ∅⟩
      ([] ++ (PortProvider.request, some 20) ::
        ([(PortProvider.request, some 21), (PortProvider.release 20, none)] ++
          (PortProvider.request, some 20) :: [])) ⟨∅, {20, 21}⟩ :=
    run_turn_eq [21, 20] ⟨{21}, {20}⟩ (by decide) (by decide)
      (run_turn_eq [21] ⟨∅, {21, 20}⟩ (by decide) (by decide)
        (run_turn_eq [] ⟨{20}, {21}⟩ (by decide) (by decide)
          (run_turn_eq [20] ⟨∅, {20, 21}⟩ (by decide) (by decide)
            (PortProvider.Run.done _))))
  ⟨⟨hinit, hrun, by decide, by decide⟩,
    no_double_grant 20 21 ⟨{20, 21}, ∅⟩ ⟨∅, {20, 21}⟩ [] _ [] _ _ 20 hinit hrun
      (by decide) (by decide) (by decide)⟩

/-- Witness of claim C5 at a concrete input. -/
theorem release_after_exhaustion_witness :
    (PortProvider.Reachable 20 21 ⟨∅, {21, 20}⟩ ∧ (∅ : Finset Int) = ∅ ∧
      (20 : Int) ∈ ({21, 20} : Finset Int)) ∧
    ∀ order1, IterationOf
        (PortProvider.handle 20 21 ⟨∅, {21, 20}⟩ [] (PortProvider.release 20)).1.available
        order1 →
      (PortProvider.handle 20 21
        (PortProvider.handle 20 21 ⟨∅, {21, 20}⟩ [] (PortProvider.release 20)).1
        order1 PortProvider.request).2 = some 20 ∧
      ∀ order2, IterationOf
          (PortProvider.handle 20 21
            (PortProvider.handle 20 21 ⟨∅, {21, 20}⟩ [] (PortProvider.release 20)).1
            order1 PortProvider.request).1.available order2 →
        (PortProvider.handle 20 21
          (PortProvider.handle 20 21
            (PortProvider.handle 20 21 ⟨∅, {21, 20}⟩ [] (PortProvider.release 20)).1
            order1 PortProvider.request).1
          order2 PortProvider.request).2 = some (-1) :=
  have hr : PortProvider.Reachable 20 21 ⟨∅, {21, 20}⟩ :=
    ⟨⟨{20, 21}, ∅⟩, [(PortProvider.request, some 20), (PortProvider.request, some 21)],
      by simp [PortProvider.init, PortProvider.populate]; decide,
      run_turn_eq [21, 20] ⟨{21}, {20}⟩ (by decide) (by decide)
        (run_turn_eq [21] ⟨∅, {21, 20}⟩ (by decide) (by decide)
          (PortProvider.Run.done _))⟩
  ⟨⟨hr, rfl, by decide⟩,
    release_after_exhaustion 20 21 ⟨∅, {21, 20}⟩ 20 [] hr rfl (by decide)⟩

/-! ## The dispatcher: lemmas and claims C7 to C10 -/

theorem dropWhile_all (p : Char → Bool) (a b : List Char) (h : ∀ c ∈ a, p c = true) :
    (a ++ b).dropWhile p = b.dropWhile p := by
  induction a with
  | nil => rfl
  | cons x xs ih =>
    have hx : p x = true := h x (List.mem_cons_self _ _)
    simp only [List.cons_append, List.dropWhile_cons, hx, if_true]
    exact ih (fun c hc => h c (List.mem_cons_of_mem _ hc))

theorem dropWhile_head (p : Char → Bool) (x : Char) (l : List Char) (h : p x = false) :
    (x :: l).dropWhile p = x :: l := by
  simp [List.dropWhile_cons, h]

/-- Trimming a text that begins and ends with a rune that is not white space, followed
by white space only, gives the text. -/
theorem trimRunes_body (x y : Char) (mid tail : List Char)
    (hx : unicode_IsSpace x = false) (hy : unicode_IsSpace y = false)
    (htail : ∀ c ∈ tail, unicode_IsSpace c = true) :
    trimRunes (x :: (mid ++ y :: tail)) = x :: (mid ++ [y]) := by
  unfold trimRunes
  rw [dropWhile_head _ _ _ hx]
  have hrev : (x :: (mid ++ y :: tail)).reverse = tail.reverse ++ (y :: (mid.reverse ++ [x])) := by
    simp
  rw [hrev, dropWhile_all _ _ _ (fun c hc => htail c (List.mem_reverse.mp hc)),
    dropWhile_head _ _ _ hy]
  simp

/-- Trimming a single rune that is not white space, followed by white space only. -/
theorem trimRunes_single (x : Char) (tail : List Char)
    (hx : unicode_IsSpace x = false) (htail : ∀ c ∈ tail, unicode_IsSpace c = true) :
    trimRunes (x :: tail) = [x] := by
  unfold trimRunes
  rw [dropWhile_head _ _ _ hx]
  have hrev : (x :: tail).reverse = tail.reverse ++ [x] := by simp
  rw [hrev, dropWhile_all _ _ _ (fun c hc => htail c (List.mem_reverse.mp hc)),
    dropWhile_head _ _ _ hx]
  rfl

theorem splitRunes_ne_nil (l : List Char) : splitRunes l ≠ [] := by
  cases l with
  | nil => simp [splitRunes]
  | cons c cs =>
    unfold splitRunes
    split
    · simp
    · split <;> simp

theorem splitRunes_nospace (l : List Char) (h : ∀ c ∈ l, c ≠ ' ') : splitRunes l = [l] := by
  induction l with
  | nil => rfl
  | cons c cs ih =>
    have hc : c ≠ ' ' := h c (List.mem_cons_self _ _)
    have := ih (fun d hd => h d (List.mem_cons_of_mem _ hd))
    simp [splitRunes, hc, this]

theorem splitRunes_word (w rest : List Char) (h : ∀ c ∈ w, c ≠ ' ') :
    splitRunes (w ++ ' ' :: rest) = w :: splitRunes rest := by
  induction w with
  | nil => simp [splitRunes]
  | cons c cs ih =>
    have hc : c ≠ ' ' := h c (List.mem_cons_self _ _)
    have := ih (fun d hd => h d (List.mem_cons_of_mem _ hd))
    simp [splitRunes, hc, this]

theorem not_space_of_not_isSpace {c : Char} (h : unicode_IsSpace c = false) : c ≠ ' ' := by
  rintro rfl
  exact absurd h (by decide)

/-- The line `word`, one space, `arg`, then white space only, where neither `word`
nor `arg` is empty or holds white space, is split into the two. -/
theorem parse_word_arg (word arg tail : String)
    (hw : word ≠ "") (hws : ∀ c ∈ word.data, unicode_IsSpace c = false)
    (ha : arg ≠ "") (has : ∀ c ∈ arg.data, unicode_IsSpace c = false)
    (htail : ∀ c ∈ tail.data, unicode_IsSpace c = true) :
    FtpCommand.parse (word ++ " " ++ arg ++ tail)
      = some (strings_ToUpper word, [word, arg]) := by
  obtain ⟨wd⟩ := word
  obtain ⟨ad⟩ := arg
  obtain ⟨td⟩ := tail
  cases wd with
  | nil => exact absurd rfl hw
  | cons x wd =>
    have had : ad ≠ [] := fun h => ha (by rw [h])
    obtain ⟨ainit, y, rfl⟩ : ∃ ainit y, ad = ainit ++ [y] :=
      ⟨ad.dropLast, ad.getLast had, (List.dropLast_append_getLast had).symm⟩
    have hx : unicode_IsSpace x = false := hws x (List.mem_cons_self _ _)
    have hy : unicode_IsSpace y = false := has y (by simp)
    have hdata : (String.mk (x :: wd) ++ " " ++ String.mk (ainit ++ [y]) ++ String.mk td).data
        = x :: ((wd ++ ' ' :: ainit) ++ y :: td) := by
      simp [String.data_append]
    have htrim := trimRunes_body x y (wd ++ ' ' :: ainit) td hx hy htail
    have hsplit : splitRunes (x :: ((wd ++ ' ' :: ainit) ++ [y]))
        = [x :: wd, ainit ++ [y]] := by
      have h1 : x :: ((wd ++ ' ' :: ainit) ++ [y]) = (x :: wd) ++ ' ' :: (ainit ++ [y]) := by
        simp
      rw [h1, splitRunes_word _ _ (fun c hc => not_space_of_not_isSpace (hws c hc)),
        splitRunes_nospace _ (fun c hc => not_space_of_not_isSpace (has c hc))]
    simp only [FtpCommand.parse, strings_TrimSpace, strings_Split, hdata, htrim, hsplit]
    rfl

/-- The line `word` followed by white space only, where `word` is not empty and holds
no white space, is split into `word` alone. -/
theorem parse_word (word tail : String)
    (hw : word ≠ "") (hws : ∀ c ∈ word.data, unicode_IsSpace c = false)
    (htail : ∀ c ∈ tail.data, unicode_IsSpace c = true) :
    FtpCommand.parse (word ++ tail) = some (strings_ToUpper word, [word]) := by
  obtain ⟨wd⟩ := word
  obtain ⟨td⟩ := tail
  have hwd : wd ≠ [] := fun h => hw (by rw [h])
  have hsp : splitRunes wd = [wd] :=
    splitRunes_nospace _ (fun c hc => not_space_of_not_isSpace (hws c hc))
  have htrim : trimRunes (wd ++ td) = wd := by
    cases wd with
    | nil => exact absurd rfl hwd
    | cons x wd =>
      have hx : unicode_IsSpace x = false := hws x (List.mem_cons_self _ _)
      by_cases hnil : wd = []
      · subst hnil
        exact trimRunes_single x td hx htail
      · obtain ⟨winit, y, rfl⟩ : ∃ winit y, wd = winit ++ [y] :=
          ⟨wd.dropLast, wd.getLast hnil, (List.dropLast_append_getLast hnil).symm⟩
        have hy : unicode_IsSpace y = false := hws y (by simp)
        have := trimRunes_body x y winit td hx hy htail
        simpa using this
  have hdata : (String.mk wd ++ String.mk td).data = wd ++ td := by
    simp [String.data_append]
  simp only [FtpCommand.parse, strings_TrimSpace, strings_Split, hdata, htrim, hsp]
  rfl

theorem finish_config (c : ConfigOptions) (s : FtpSession) (w : List String) :
    (FtpCommand.finish c s w).config = c := by
  unfold FtpCommand.finish; split <;> rfl

theorem finish_sess (c : ConfigOptions) (s : FtpSession) (w : List String) :
    (FtpCommand.finish c s w).sess = s := by
  unfold FtpCommand.finish; split <;> rfl

theorem finish_written (c : ConfigOptions) (s : FtpSession) (w : List String) :
    (FtpCommand.finish c s w).written = w := by
  unfold FtpCommand.finish; split <;> rfl

theorem finish_result (c : ConfigOptions) (s : FtpSession) (w : List String) :
    (FtpCommand.finish c s w).result = decide (s.Failures < 3) := by
  unfold FtpCommand.finish FAILURE_LIMIT
  split
  · rename_i h; simp; omega
  · rename_i h; simp; omega

theorem ftpCommand_of_parse (cfg : ConfigOptions) (creds : Credentials) (sess : FtpSession)
    (line cmd : String) (cmd_slice : List String)
    (h : FtpCommand.parse line = some (cmd, cmd_slice)) :
    FtpCommand cfg creds sess line = FtpCommand.switch cfg creds sess cmd cmd_slice := by
  simp [FtpCommand, h]

theorem switch_USER (cfg : ConfigOptions) (creds : Credentials) (sess : FtpSession)
    (sl : List String) (r : HandlerResult) (h : AuthUser creds sl sess = some r) :
    FtpCommand.switch cfg creds sess "USER" sl
      = some (FtpCommand.finish cfg
          (if !r.ok then { r.sess with Failures := wrapInt64 (r.sess.Failures + 1) }
           else r.sess)
          [WriteResponse r.code r.msg]) := by
  simp [FtpCommand.switch, h]

theorem switch_PASS (cfg : ConfigOptions) (creds : Credentials) (sess : FtpSession)
    (sl : List String) (r : HandlerResult) (h : CheckPassword creds sl sess = some r) :
    FtpCommand.switch cfg creds sess "PASS" sl
      = some (FtpCommand.finish cfg
          (if !r.ok then { r.sess with Failures := wrapInt64 (r.sess.Failures + 1) }
           else r.sess)
          [WriteResponse r.code r.msg]) := by
  simp [FtpCommand.switch, h]

theorem switch_PWD (cfg : ConfigOptions) (creds : Credentials) (sess : FtpSession)
    (sl : List String) :
    FtpCommand.switch cfg creds sess "PWD" sl
      = some (FtpCommand.finish cfg sess
          [if sess.Authenticated then WriteResponse 200 cfg.Fakedir_root
           else WriteResponse 500 "Not logged in"]) := by
  cases h : sess.Authenticated <;> simp [FtpCommand.switch, h]

theorem switch_RETR (cfg : ConfigOptions) (creds : Credentials) (sess : FtpSession)
    (sl : List String) :
    FtpCommand.switch cfg creds sess "RETR" sl = some (FtpCommand.finish cfg sess []) := by
  simp [FtpCommand.switch]

/-- Every path of `AuthUser` in an authenticated session ends in a 500 reply. -/
theorem authUser_authenticated (creds : Credentials) (sl : List String) (sess : FtpSession)
    (h : sess.Authenticated = true) :
    ∃ msg, AuthUser creds sl sess = some ⟨sess, false, 500, msg⟩ := by
  unfold AuthUser
  by_cases hl : sl.length ≠ 2
  · exact ⟨_, by rw [if_pos hl]⟩
  · exact ⟨_, by rw [if_neg hl, if_pos h]⟩

theorem writeResponse_500 (msg : String) : WriteResponse 500 msg = "500 " ++ msg ++ "\r\n" := by
  unfold WriteResponse fmt_int
  have : toString (500 : Int) ++ " " = "500 " := by decide
  rw [this]

theorem writeResponse_530 (msg : String) : WriteResponse 530 msg = "530 " ++ msg ++ "\r\n" := by
  unfold WriteResponse fmt_int
  have : toString (530 : Int) ++ " " = "530 " := by decide
  rw [this]

theorem writeResponse_200 (msg : String) : WriteResponse 200 msg = "200 " ++ msg ++ "\r\n" := by
  unfold WriteResponse fmt_int
  have : toString (200 : Int) ++ " " = "200 " := by decide
  rw [this]

/-- Claim C7. In an unauthenticated session, for a credential-store entry `(name, pw)` whose
name and password are not empty and hold no white space: the line `USER name` is
answered `331 User OK, specify password`, the next line `PASS pw` is answered
`230 OK (login successful)` and leaves the session authenticated with user name
`name`, the next line `PWD` is answered `200` with the configured fake root, and any
line after that whose command word is `USER` is answered with code 500. Each line may
end in any white space (such as the line end `\r\n`). -/
theorem login_dialogue (cfg : ConfigOptions) (creds : Credentials) (sess : FtpSession)
    (name pw tail1 tail2 tail3 : String)
    (hauth : sess.Authenticated = false) (hcred : creds name = some pw)
    (hname : name ≠ "") (hname_ws : ∀ c ∈ name.data, unicode_IsSpace c = false)
    (hpw : pw ≠ "") (hpw_ws : ∀ c ∈ pw.data, unicode_IsSpace c = false)
    (ht1 : ∀ c ∈ tail1.data, unicode_IsSpace c = true)
    (ht2 : ∀ c ∈ tail2.data, unicode_IsSpace c = true)
    (ht3 : ∀ c ∈ tail3.data, unicode_IsSpace c = true) :
    ∃ d1 d2 d3 : Dispatch,
      FtpCommand cfg creds sess ("USER " ++ name ++ tail1) = some d1 ∧
      d1.written = ["331 User OK, specify password\r\n"] ∧
      FtpCommand d1.config creds d1.sess ("PASS " ++ pw ++ tail2) = some d2 ∧
      d2.written = ["230 OK (login successful)\r\n"] ∧
      d2.sess.Authenticated = true ∧ d2.sess.Username = name ∧
      FtpCommand d2.config creds d2.sess ("PWD" ++ tail3) = some d3 ∧
      d3.written = ["200 " ++ cfg.Fakedir_root ++ "\r\n"] ∧
      ∀ line cmd_slice, FtpCommand.parse line = some ("USER", cmd_slice) →
        ∃ d4 msg, FtpCommand d3.config creds d3.sess line = some d4 ∧
          d4.written = ["500 " ++ msg ++ "\r\n"] := by
  have hp1 : FtpCommand.parse ("USER " ++ name ++ tail1) = some ("USER", ["USER", name]) :=
    parse_word_arg "USER" name tail1 (by decide) (by decide) hname hname_ws ht1
  have hp2 : FtpCommand.parse ("PASS " ++ pw ++ tail2) = some ("PASS", ["PASS", pw]) :=
    parse_word_arg "PASS" pw tail2 (by decide) (by decide) hpw hpw_ws ht2
  have hp3 : FtpCommand.parse ("PWD" ++ tail3) = some ("PWD", ["PWD"]) :=
    parse_word "PWD" tail3 (by decide) (by decide) ht3
  have ha1 : AuthUser creds ["USER", name] sess
      = some ⟨{ sess with Username := name, Authenticated := false }, true, 331,
          "User OK, specify password"⟩ := by
    simp [AuthUser, hauth, hcred]
  have ha2 : CheckPassword creds ["PASS", pw]
        { sess with Username := name, Authenticated := false }
      = some ⟨{ sess with Username := name, Authenticated := true }, true, 230,
          "OK (login successful)"⟩ := by
    simp [CheckPassword, hname, hcred]
  refine ⟨FtpCommand.finish cfg { sess with Username := name, Authenticated := false }
      [WriteResponse 331 "User OK, specify password"],
    FtpCommand.finish cfg { sess with Username := name, Authenticated := true }
      [WriteResponse 230 "OK (login successful)"],
    FtpCommand.finish cfg { sess with Username := name, Authenticated := true }
      [WriteResponse 200 cfg.Fakedir_root], ?_, ?_, ?_, ?_, ?_, ?_, ?_, ?_, ?_⟩
  · rw [ftpCommand_of_parse _ _ _ _ _ _ hp1, switch_USER _ _ _ _ _ ha1]
    rfl
  · rw [finish_written]; decide
  · rw [finish_config, finish_sess, ftpCommand_of_parse _ _ _ _ _ _ hp2,
      switch_PASS _ _ _ _ _ ha2]
    rfl
  · rw [finish_written]; decide
  · rw [finish_sess]
  · rw [finish_sess]
  · rw [finish_config, finish_sess, ftpCommand_of_parse _ _ _ _ _ _ hp3, switch_PWD]
    rfl
  · rw [finish_written, writeResponse_200]
  · intro line cmd_slice hparse
    rw [finish_config, finish_sess, ftpCommand_of_parse _ _ _ _ _ _ hparse]
    obtain ⟨msg, hmsg⟩ := authUser_authenticated creds cmd_slice
      { sess with Username := name, Authenticated := true } rfl
    rw [switch_USER _ _ _ _ _ hmsg]
    exact ⟨_, msg, rfl, by rw [finish_written, writeResponse_500]⟩

/-- Witness of claim C7 at a concrete input. -/
theorem login_dialogue_witness :
    ((freshSession "10.0.0.1:4000").Authenticated = false ∧
      exampleCredentials "alice" = some "secret") ∧
    FtpCommand exampleConfig exampleCredentials (freshSession "10.0.0.1:4000")
        "USER alice\r\n"
      = some ⟨exampleConfig, { freshSession "10.0.0.1:4000" with Username := "alice" },
          ["331 User OK, specify password\r\n"], true⟩ ∧
    ∃ d1 d2 d3 : Dispatch,
      FtpCommand exampleConfig exampleCredentials (freshSession "10.0.0.1:4000")
        ("USER " ++ "alice" ++ "\r\n") = some d1 ∧
      d1.written = ["331 User OK, specify password\r\n"] ∧
      FtpCommand d1.config exampleCredentials d1.sess ("PASS " ++ "secret" ++ "\r\n")
        = some d2 ∧
      d2.written = ["230 OK (login successful)\r\n"] ∧
      d2.sess.Authenticated = true ∧ d2.sess.Username = "alice" ∧
      FtpCommand d2.config exampleCredentials d2.sess ("PWD" ++ "\r\n") = some d3 ∧
      d3.written = ["200 " ++ exampleConfig.Fakedir_root ++ "\r\n"] ∧
      ∀ line cmd_slice, FtpCommand.parse line = some ("USER", cmd_slice) →
        ∃ d4 msg, FtpCommand d3.config exampleCredentials d3.sess line = some d4 ∧
          d4.written = ["500 " ++ msg ++ "\r\n"] :=
  ⟨⟨by decide, by decide⟩, by decide,
    login_dialogue exampleConfig exampleCredentials (freshSession "10.0.0.1:4000")
      "alice" "secret" "\r\n" "\r\n" "\r\n" (by decide) (by decide) (by decide) (by decide)
      (by decide) (by decide) (by decide) (by decide) (by decide)⟩

/-- Claim C9. In a session that is not authenticated, a line whose command word is one of
PWD, TYPE, LIST, FEAT, STRU, SYST, STAT (with any arguments) is answered with
`500 Not logged in`, and the session (every field of it) and the configuration are
left as they were. -/
theorem unauthenticated_rejected (cfg : ConfigOptions) (creds : Credentials)
    (sess : FtpSession) (line cmd : String) (cmd_slice : List String)
    (hauth : sess.Authenticated = false)
    (hparse : FtpCommand.parse line = some (cmd, cmd_slice))
    (hcmd : cmd ∈ ["PWD", "TYPE", "LIST", "FEAT", "STRU", "SYST", "STAT"]) :
    ∃ d : Dispatch, FtpCommand cfg creds sess line = some d ∧
      d.written = ["500 Not logged in\r\n"] ∧ d.sess = sess ∧ d.config = cfg := by
  have hw : WriteResponse 500 "Not logged in" = "500 Not logged in\r\n" := by decide
  refine ⟨FtpCommand.finish cfg sess ["500 Not logged in\r\n"], ?_,
    finish_written _ _ _, finish_sess _ _ _, finish_config _ _ _⟩
  rw [ftpCommand_of_parse _ _ _ _ _ _ hparse]
  simp only [List.mem_cons, List.mem_singleton, List.not_mem_nil, or_false] at hcmd
  rcases hcmd with rfl | rfl | rfl | rfl | rfl | rfl | rfl <;>
    simp [FtpCommand.switch, hauth, hw]

/-- Witness of claim C9 at a concrete input. -/
theorem unauthenticated_rejected_witness :
    ((freshSession "10.0.0.1:4000").Authenticated = false ∧
      FtpCommand.parse "type A\r\n" = some ("TYPE", ["type", "A"]) ∧
      "TYPE" ∈ ["PWD", "TYPE", "LIST", "FEAT", "STRU", "SYST", "STAT"]) ∧
    FtpCommand exampleConfig exampleCredentials (freshSession "10.0.0.1:4000") "type A\r\n"
      = some ⟨exampleConfig, freshSession "10.0.0.1:4000", ["500 Not logged in\r\n"], true⟩ ∧
    ∃ d : Dispatch,
      FtpCommand exampleConfig exampleCredentials (freshSession "10.0.0.1:4000") "type A\r\n"
        = some d ∧
      d.written = ["500 Not logged in\r\n"] ∧ d.sess = freshSession "10.0.0.1:4000" ∧
      d.config = exampleConfig :=
  ⟨⟨by decide, by decide, by decide⟩, by decide,
    unauthenticated_rejected exampleConfig exampleCredentials (freshSession "10.0.0.1:4000")
      "type A\r\n" "TYPE" ["type", "A"] (by decide) (by decide) (by decide)⟩

theorem checkPassword_fail (creds : Credentials) (sl : List String) (sess : FtpSession)
    (r : HandlerResult) (h : CheckPassword creds sl sess = some r) (hok : r.ok = false) :
    r.sess = sess ∧ (r.code = 500 ∨ r.code = 530) := by
  unfold CheckPassword at h
  split at h
  · cases h; exact ⟨rfl, Or.inl rfl⟩
  · split at h
    · cases h; exact ⟨rfl, Or.inl rfl⟩
    · rename_i hna
      split at h
      · split at h
        · cases hsl : sl[1]? with
          | none => simp [hsl] at h
          | some given =>
            simp only [hsl, Option.bind_eq_bind, Option.some_bind] at h
            split at h
            · cases h; simp at hok
            · cases h
              refine ⟨?_, Or.inr rfl⟩
              cases sess
              simp at hna ⊢
              exact hna
        · cases h; exact ⟨rfl, Or.inr rfl⟩
      · cases h; exact ⟨rfl, Or.inr rfl⟩

/-- A failed PASS: one failure response is written, the session only has its failure
counter raised by one, and the configuration is untouched. -/
theorem ftpCommand_pass_fail (cfg : ConfigOptions) (creds : Credentials) (sess : FtpSession)
    (line : String) (sl : List String)
    (hparse : FtpCommand.parse line = some ("PASS", sl)) (hfail : PassFails creds sl sess) :
    ∃ w, IsFailureResponse w ∧
      FtpCommand cfg creds sess line
        = some (FtpCommand.finish cfg
            { sess with Failures := wrapInt64 (sess.Failures + 1) } w) := by
  obtain ⟨r, hr, hok⟩ := hfail
  obtain ⟨hs, hcode⟩ := checkPassword_fail creds sl sess r hr hok
  refine ⟨[WriteResponse r.code r.msg], ?_, ?_⟩
  · rcases hcode with hc | hc
    · exact ⟨r.msg, Or.inl (by rw [hc, writeResponse_500])⟩
    · exact ⟨r.msg, Or.inr (by rw [hc, writeResponse_530])⟩
  · rw [ftpCommand_of_parse _ _ _ _ _ _ hparse, switch_PASS _ _ _ _ _ hr]
    simp [hok, hs]

/-- Claim C8. In a session whose failure counter is 0 (as in every freshly accepted session),
three consecutive PASS commands that fail are each answered with a failure response
(code 500 or 530); the dispatcher returns `true` (continue) after the first and after
the second and `false` (terminate) after the third; and the read loop of
`NewConnection` is left after the third response, whatever would be read next. -/
theorem three_failed_pass (cfg : ConfigOptions) (creds : Credentials) (sess : FtpSession)
    (l1 l2 l3 : String) (sl1 sl2 sl3 : List String)
    (hf : sess.Failures = 0)
    (hp1 : FtpCommand.parse l1 = some ("PASS", sl1))
    (hp2 : FtpCommand.parse l2 = some ("PASS", sl2))
    (hp3 : FtpCommand.parse l3 = some ("PASS", sl3))
    (hfail1 : PassFails creds sl1 sess) :
    ∃ d1 : Dispatch, FtpCommand cfg creds sess l1 = some d1 ∧
      IsFailureResponse d1.written ∧ d1.result = true ∧
      (PassFails creds sl2 d1.sess →
        ∃ d2 : Dispatch, FtpCommand d1.config creds d1.sess l2 = some d2 ∧
          IsFailureResponse d2.written ∧ d2.result = true ∧
          (PassFails creds sl3 d2.sess →
            ∃ d3 : Dispatch, FtpCommand d2.config creds d2.sess l3 = some d3 ∧
              IsFailureResponse d3.written ∧ d3.result = false ∧
              ∀ reads : List (Option String),
                NewConnection.loop creds cfg sess (some l1 :: some l2 :: some l3 :: reads)
                  = some ⟨d3.config, d3.sess, d1.written ++ (d2.written ++ d3.written),
                      true⟩)) := by
  have e1 : wrapInt64 (sess.Failures + 1) = 1 := by rw [hf]; decide
  have e2 : wrapInt64 (wrapInt64 (sess.Failures + 1) + 1) = 2 := by rw [e1]; decide
  have e3 : wrapInt64 (wrapInt64 (wrapInt64 (sess.Failures + 1) + 1) + 1) = 3 := by
    rw [e2]; decide
  obtain ⟨w1, hw1, h1⟩ := ftpCommand_pass_fail cfg creds sess l1 sl1 hp1 hfail1
  refine ⟨_, h1, by rw [finish_written]; exact hw1, by rw [finish_result]; simp [e1], ?_⟩
  rw [finish_config, finish_sess]
  intro hfail2
  obtain ⟨w2, hw2, h2⟩ := ftpCommand_pass_fail cfg creds _ l2 sl2 hp2 hfail2
  refine ⟨_, h2, by rw [finish_written]; exact hw2, by rw [finish_result]; simp [e2], ?_⟩
  rw [finish_config, finish_sess]
  intro hfail3
  obtain ⟨w3, hw3, h3⟩ := ftpCommand_pass_fail cfg creds _ l3 sl3 hp3 hfail3
  refine ⟨_, h3, by rw [finish_written]; exact hw3, by rw [finish_result]; simp [e3], ?_⟩
  intro reads
  have r1 : (FtpCommand.finish cfg
      { sess with Failures := wrapInt64 (sess.Failures + 1) } w1).result = true := by
    rw [finish_result]; simp [e1]
  have r2 : (FtpCommand.finish cfg
      { sess with Failures := wrapInt64 (wrapInt64 (sess.Failures + 1) + 1) } w2).result
      = true := by rw [finish_result]; simp [e2]
  have r3 : (FtpCommand.finish cfg
      { sess with Failures := wrapInt64 (wrapInt64 (wrapInt64 (sess.Failures + 1) + 1) + 1) }
      w3).result = false := by
    rw [finish_result]; simp [e3]
  simp only [NewConnection.loop, h1, Option.bind_eq_bind, Option.some_bind, r1,
    finish_config, finish_sess, finish_written] at h2 h3 ⊢
  simp [h2, h3, r2, r3, finish_config, finish_sess, finish_written]

/-- Claim C10, the code at the failing input. For the line `RETR readme` the dispatcher
writes nothing at all: the `RETR` case of the `switch` is empty. -/
theorem retr_writes_nothing (cfg : ConfigOptions) (creds : Credentials) (sess : FtpSession) :
    ∃ d : Dispatch, FtpCommand cfg creds sess "RETR readme\r\n" = some d ∧
      d.written = [] ∧ d.sess = sess ∧ d.config = cfg := by
  have hp : FtpCommand.parse "RETR readme\r\n" = some ("RETR", ["RETR", "readme"]) := by
    decide
  exact ⟨_, by rw [ftpCommand_of_parse _ _ _ _ _ _ hp, switch_RETR],
    finish_written _ _ _, finish_sess _ _ _, finish_config _ _ _⟩

/-- Witness of claim C8: three failing PASS lines on a fresh session. -/
theorem three_failed_pass_witness :
    ((freshSession "10.0.0.1:4000").Failures = 0 ∧
      FtpCommand.parse "PASS a\r\n" = some ("PASS", ["PASS", "a"]) ∧
      FtpCommand.parse "PASS\r\n" = some ("PASS", ["PASS"]) ∧
      FtpCommand.parse "pass secret\r\n" = some ("PASS", ["pass", "secret"]) ∧
      PassFails exampleCredentials ["PASS", "a"] (freshSession "10.0.0.1:4000")) ∧
    NewConnection exampleConfig exampleCredentials (freshSession "10.0.0.1:4000")
        [some "PASS a\r\n", some "PASS\r\n", some "pass secret\r\n", some "NOOP\r\n"]
      = some ⟨exampleConfig, { freshSession "10.0.0.1:4000" with Failures := 3 },
          ["FakeTP (0.1.0)\n", "welcome\n", "530 Not logged in (need username)\r\n",
            "500 Bad PASS command\r\n", "530 Not logged in (need username)\r\n"], true⟩ ∧
    ∃ d1 : Dispatch,
      FtpCommand exampleConfig exampleCredentials (freshSession "10.0.0.1:4000") "PASS a\r\n"
        = some d1 ∧
      IsFailureResponse d1.written ∧ d1.result = true ∧
      (PassFails exampleCredentials ["PASS"] d1.sess →
        ∃ d2 : Dispatch,
          FtpCommand d1.config exampleCredentials d1.sess "PASS\r\n" = some d2 ∧
          IsFailureResponse d2.written ∧ d2.result = true ∧
          (PassFails exampleCredentials ["pass", "secret"] d2.sess →
            ∃ d3 : Dispatch,
              FtpCommand d2.config exampleCredentials d2.sess "pass secret\r\n" = some d3 ∧
              IsFailureResponse d3.written ∧ d3.result = false ∧
              ∀ reads : List (Option String),
                NewConnection.loop exampleCredentials exampleConfig
                    (freshSession "10.0.0.1:4000")
                    (some "PASS a\r\n" :: some "PASS\r\n" :: some "pass secret\r\n" :: reads)
                  = some ⟨d3.config, d3.sess, d1.written ++ (d2.written ++ d3.written),
                      true⟩)) :=
  have hfail : PassFails exampleCredentials ["PASS", "a"] (freshSession "10.0.0.1:4000") :=
    ⟨⟨freshSession "10.0.0.1:4000", false, 530, "Not logged in (need username)"⟩,
      by decide, rfl⟩
  ⟨⟨by decide, by decide, by decide, by decide, hfail⟩, by decide,
    three_failed_pass exampleConfig exampleCredentials (freshSession "10.0.0.1:4000")
      "PASS a\r\n" "PASS\r\n" "pass secret\r\n" ["PASS", "a"] ["PASS"] ["pass", "secret"]
      (by decide) (by decide) (by decide) (by decide) hfail⟩

/-! ## The response writer and the dispatcher: lemmas and claims C11 to C20 -/

theorem getElem?_append_last (l : List String) (z : String) :
    (l ++ [z])[l.length]? = some z := by
  simp

theorem set_append_last (l : List String) (z y : String) :
    (l ++ [z]).set l.length y = l ++ [y] := by
  induction l with
  | nil => rfl
  | cons a l ih => simp [ih]

/-- The multi-line writer on a list of at least two lines. -/
theorem writeResponseMultiLine_two (code : Int) (first last : String) (mid : List String) :
    WriteResponseMultiLine code (first :: (mid ++ [last]))
      = some ((fmt_int code ++ "-" ++ first) :: (mid ++ [fmt_int code ++ " " ++ last]),
          strings_Join ((fmt_int code ++ "-" ++ first) ::
            (mid ++ [fmt_int code ++ " " ++ last])) "\r\n" ++ "\r\n") := by
  have hlen : ((fmt_int code ++ "-" ++ first) :: (mid ++ [last])).length - 1
      = ((fmt_int code ++ "-" ++ first) :: mid).length := by simp
  have hget : ((fmt_int code ++ "-" ++ first) :: (mid ++ [last]))[
      ((fmt_int code ++ "-" ++ first) :: mid).length]? = some last :=
    getElem?_append_last ((fmt_int code ++ "-" ++ first) :: mid) last
  have hset : ((fmt_int code ++ "-" ++ first) :: (mid ++ [last])).set
      ((fmt_int code ++ "-" ++ first) :: mid).length (fmt_int code ++ " " ++ last)
      = (fmt_int code ++ "-" ++ first) :: (mid ++ [fmt_int code ++ " " ++ last]) :=
    set_append_last ((fmt_int code ++ "-" ++ first) :: mid) last _
  unfold WriteResponseMultiLine
  simp only [List.getElem?_cons_zero, List.set_cons_zero, Option.bind_eq_bind,
    Option.some_bind, hlen, hget, hset]

/-- The text of `strings.Join` for a first line, middle lines and a last line: every
line but the last is followed by the separator. -/
theorem strings_Join_lines (a z sep : String) (mid : List String) :
    strings_Join (a :: (mid ++ [z])) sep
      = a ++ sep ++ mid.foldr (fun m acc => m ++ sep ++ acc) z := by
  induction mid generalizing a with
  | nil => simp [strings_Join]
  | cons m mid ih =>
    have : strings_Join (a :: (m :: mid ++ [z])) sep
        = a ++ sep ++ strings_Join (m :: (mid ++ [z])) sep := by
      simp [strings_Join]
    rw [this, ih m]
    simp [String.append_assoc]

/-- Claim C11. For every response code and every list of at least two lines (a first
line, any middle lines, a last line) the multi-line writer does not fail and writes
exactly: the code, a dash and the first line; then each middle line unchanged; then
the code, a space and the last line; each of these followed by `\r\n`. So the FEAT
response of an authenticated session begins with `211-` and its final line begins
with `211 `. -/
theorem multiline_framing (code : Int) (first last : String) (mid : List String)
    (cfg : ConfigOptions) (creds : Credentials) (sess : FtpSession) :
    (∃ stored, WriteResponseMultiLine code (first :: (mid ++ [last]))
      = some (stored,
          fmt_int code ++ "-" ++ first ++ "\r\n" ++
            mid.foldr (fun m acc => m ++ "\r\n" ++ acc) (fmt_int code ++ " " ++ last)
            ++ "\r\n")) ∧
    (∃ d : Dispatch,
      FtpCommand cfg creds { sess with Authenticated := true } "FEAT\r\n" = some d ∧
      d.written = ["211-Features:\r\nUTF8\r\nPASV\r\nREST STREAM\r\n211 End\r\n"]) := by
  constructor
  · refine ⟨(fmt_int code ++ "-" ++ first) :: (mid ++ [fmt_int code ++ " " ++ last]), ?_⟩
    rw [writeResponseMultiLine_two, strings_Join_lines]
  · have hp : FtpCommand.parse "FEAT\r\n" = some ("FEAT", ["FEAT"]) := by decide
    have hw : WriteResponseMultiLine 211 ["Features:", "UTF8", "PASV", "REST STREAM", "End"]
        = some (["211-Features:", "UTF8", "PASV", "REST STREAM", "211 End"],
            "211-Features:\r\nUTF8\r\nPASV\r\nREST STREAM\r\n211 End\r\n") := by decide
    refine ⟨FtpCommand.finish cfg { sess with Authenticated := true }
      ["211-Features:\r\nUTF8\r\nPASV\r\nREST STREAM\r\n211 End\r\n"], ?_,
      finish_written _ _ _⟩
    rw [ftpCommand_of_parse _ _ _ _ _ _ hp]
    simp [FtpCommand.switch, hw]

/-- What the dispatcher makes of the session after USER or PASS: the failure counter is
raised when the handler reports failure. -/
theorem authUser_cases (creds : Credentials) (sl : List String) (sess : FtpSession)
    (r : HandlerResult) (h : AuthUser creds sl sess = some r) :
    (r.ok = false ∧ r.sess = sess ∧ (r.code = 500 ∨ r.code = 530)) ∨
    (r.ok = true ∧ r.code = 331 ∧ sess.Authenticated = false ∧
      ∃ w name, sl = [w, name] ∧ (creds name).isSome = true ∧
        r.sess = { sess with Username := name, Authenticated := false }) := by
  unfold AuthUser at h
  split at h
  · cases h; exact Or.inl ⟨rfl, rfl, Or.inl rfl⟩
  · rename_i hlen
    split at h
    · cases h; exact Or.inl ⟨rfl, rfl, Or.inl rfl⟩
    · rename_i hna
      have hlen2 : sl.length = 2 := not_not.mp hlen
      obtain ⟨w, name, rfl⟩ : ∃ w name, sl = [w, name] := by
        match sl, hlen2 with
        | [w, name], _ => exact ⟨w, name, rfl⟩
      simp only [List.getElem?_cons_succ, List.getElem?_cons_zero, Option.bind_eq_bind,
        Option.some_bind] at h
      split at h
      · cases h; exact Or.inl ⟨rfl, rfl, Or.inr rfl⟩
      · rename_i hsome
        cases h
        refine Or.inr ⟨rfl, rfl, by simpa using hna, w, name, rfl, ?_, rfl⟩
        cases hc : creds name with
        | none => simp [hc] at hsome
        | some v => rfl

theorem checkPassword_cases (creds : Credentials) (sl : List String) (sess : FtpSession)
    (r : HandlerResult) (h : CheckPassword creds sl sess = some r) :
    (r.ok = false ∧ r.sess = sess ∧ (r.code = 500 ∨ r.code = 530)) ∨
    (r.ok = true ∧ r.code = 230 ∧ sess.Authenticated = false ∧ sess.Username ≠ "" ∧
      ∃ w pw, sl = [w, pw] ∧ creds sess.Username = some pw ∧
        r.sess = { sess with Authenticated := true }) := by
  by_cases hok : r.ok = false
  · exact Or.inl ⟨hok, checkPassword_fail creds sl sess r h hok⟩
  · right
    unfold CheckPassword at h
    split at h
    · cases h; exact absurd rfl hok
    · rename_i hlen
      split at h
      · cases h; exact absurd rfl hok
      · rename_i hna
        have hlen2 : sl.length = 2 := not_not.mp hlen
        obtain ⟨w, given, rfl⟩ : ∃ w given, sl = [w, given] := by
          match sl, hlen2 with
          | [w, given], _ => exact ⟨w, given, rfl⟩
        split at h
        · rename_i hname
          split at h
          · rename_i pw hpw
            simp only [List.getElem?_cons_succ, List.getElem?_cons_zero, Option.bind_eq_bind,
              Option.some_bind] at h
            split at h
            · rename_i heq
              cases h
              exact ⟨rfl, rfl, by simpa using hna, hname, w, given, rfl, heq ▸ hpw, rfl⟩
            · cases h; exact absurd rfl hok
          · cases h; exact absurd rfl hok
        · cases h; exact absurd rfl hok

theorem authUser_total (creds : Credentials) (sl : List String) (sess : FtpSession) :
    ∃ r, AuthUser creds sl sess = some r := by
  unfold AuthUser
  split
  · exact ⟨_, rfl⟩
  · rename_i hlen
    split
    · exact ⟨_, rfl⟩
    · have hlen2 : sl.length = 2 := not_not.mp hlen
      obtain ⟨w, name, rfl⟩ : ∃ w name, sl = [w, name] := by
        match sl, hlen2 with
        | [w, name], _ => exact ⟨w, name, rfl⟩
      simp only [List.getElem?_cons_succ, List.getElem?_cons_zero, Option.bind_eq_bind,
        Option.some_bind]
      split <;> exact ⟨_, rfl⟩

theorem checkPassword_total (creds : Credentials) (sl : List String) (sess : FtpSession) :
    ∃ r, CheckPassword creds sl sess = some r := by
  unfold CheckPassword
  split
  · exact ⟨_, rfl⟩
  · rename_i hlen
    split
    · exact ⟨_, rfl⟩
    · have hlen2 : sl.length = 2 := not_not.mp hlen
      obtain ⟨w, given, rfl⟩ : ∃ w given, sl = [w, given] := by
        match sl, hlen2 with
        | [w, given], _ => exact ⟨w, given, rfl⟩
      split
      · split
        · simp only [List.getElem?_cons_succ, List.getElem?_cons_zero, Option.bind_eq_bind,
            Option.some_bind]
          split <;> exact ⟨_, rfl⟩
        · exact ⟨_, rfl⟩
      · exact ⟨_, rfl⟩

theorem typeCommand_total (sl : List String) (sess : FtpSession) :
    ∃ r, TypeCommand sl sess = some r ∧ r.sess = sess := by
  unfold TypeCommand
  split
  · exact ⟨_, rfl, rfl⟩
  · rename_i hlen
    have hlen2 : sl.length = 2 := not_not.mp hlen
    obtain ⟨w, arg, rfl⟩ : ∃ w arg, sl = [w, arg] := by
      match sl, hlen2 with
      | [w, arg], _ => exact ⟨w, arg, rfl⟩
    simp only [List.getElem?_cons_succ, List.getElem?_cons_zero, Option.bind_eq_bind,
      Option.some_bind]
    split <;> exact ⟨_, rfl, rfl⟩

theorem structureCommand_total (sl : List String) (sess : FtpSession) :
    ∃ r, StructureCommand sl sess = some r ∧ r.sess = sess := by
  unfold StructureCommand
  split
  · exact ⟨_, rfl, rfl⟩
  · rename_i hlen
    have hlen2 : sl.length = 2 := not_not.mp hlen
    obtain ⟨w, arg, rfl⟩ : ∃ w arg, sl = [w, arg] := by
      match sl, hlen2 with
      | [w, arg], _ => exact ⟨w, arg, rfl⟩
    simp only [List.getElem?_cons_succ, List.getElem?_cons_zero, Option.bind_eq_bind,
      Option.some_bind]
    split <;> exact ⟨_, rfl, rfl⟩

/-- The multi-line writer fails exactly on the empty list. -/
theorem writeResponseMultiLine_none (code : Int) (l : List String) :
    WriteResponseMultiLine code l = none ↔ l = [] := by
  constructor
  · intro h
    cases l with
    | nil => rfl
    | cons a l =>
      exfalso
      rcases List.eq_nil_or_concat l with rfl | ⟨mid, z, rfl⟩
      · have : WriteResponseMultiLine code [a] ≠ none := by
          simp [WriteResponseMultiLine]
        exact this h
      · rw [List.concat_eq_append] at h
        rw [writeResponseMultiLine_two] at h
        exact absurd h (by simp)
  · rintro rfl
    rfl

theorem parse_total (line : String) :
    ∃ cmd cmd_slice, FtpCommand.parse line = some (cmd, cmd_slice) := by
  unfold FtpCommand.parse strings_Split
  cases h : splitRunes (strings_TrimSpace line).data with
  | nil => exact absurd h (splitRunes_ne_nil _)
  | cons w ws => exact ⟨strings_ToUpper ⟨w⟩, String.mk w :: ws.map String.mk, by simp [h]⟩

theorem switch_QUIT (cfg : ConfigOptions) (creds : Credentials) (sess : FtpSession)
    (sl : List String) :
    FtpCommand.switch cfg creds sess "QUIT" sl
      = some ⟨cfg, sess, [WriteResponse 221 "Goodbye"], false⟩ := by
  simp [FtpCommand.switch]

theorem switch_REIN (cfg : ConfigOptions) (creds : Credentials) (sess : FtpSession)
    (sl : List String) :
    FtpCommand.switch cfg creds sess "REIN" sl
      = some (FtpCommand.finish cfg { sess with Authenticated := false, Username := "" }
          [WriteResponse 200 "OK Session Reinitialized"]) := by
  simp [FtpCommand.switch]

theorem switch_TYPE (cfg : ConfigOptions) (creds : Credentials) (sess : FtpSession)
    (sl : List String) :
    ∃ r, TypeCommand sl sess = some r ∧
      FtpCommand.switch cfg creds sess "TYPE" sl
        = some (FtpCommand.finish cfg sess
            [if sess.Authenticated then WriteResponse r.code r.msg
             else WriteResponse 500 "Not logged in"]) := by
  obtain ⟨r, hr, hrs⟩ := typeCommand_total sl sess
  refine ⟨r, hr, ?_⟩
  cases h : sess.Authenticated <;> simp [FtpCommand.switch, h, hr, hrs]

theorem switch_STRU (cfg : ConfigOptions) (creds : Credentials) (sess : FtpSession)
    (sl : List String) :
    ∃ r, StructureCommand sl sess = some r ∧
      FtpCommand.switch cfg creds sess "STRU" sl
        = some (FtpCommand.finish cfg sess
            [if sess.Authenticated then WriteResponse r.code r.msg
             else WriteResponse 500 "Not logged in"]) := by
  obtain ⟨r, hr, hrs⟩ := structureCommand_total sl sess
  refine ⟨r, hr, ?_⟩
  cases h : sess.Authenticated <;> simp [FtpCommand.switch, h, hr, hrs]

theorem switch_LIST (cfg : ConfigOptions) (creds : Credentials) (sess : FtpSession)
    (sl : List String) :
    FtpCommand.switch cfg creds sess "LIST" sl
      = if sess.Authenticated then
          (WriteResponseMultiLine 200 cfg.Fakedir_list).bind fun p =>
            some (FtpCommand.finish { cfg with Fakedir_list := p.1 } sess [p.2])
        else some (FtpCommand.finish cfg sess [WriteResponse 500 "Not logged in"]) := by
  cases h : sess.Authenticated
  · simp [FtpCommand.switch, h]
  · simp only [FtpCommand.switch, h]
    simp

theorem switch_FEAT (cfg : ConfigOptions) (creds : Credentials) (sess : FtpSession)
    (sl : List String) :
    FtpCommand.switch cfg creds sess "FEAT" sl
      = some (FtpCommand.finish cfg sess
          [if sess.Authenticated then
             "211-Features:\r\nUTF8\r\nPASV\r\nREST STREAM\r\n211 End\r\n"
           else WriteResponse 500 "Not logged in"]) := by
  have hw : WriteResponseMultiLine 211 ["Features:", "UTF8", "PASV", "REST STREAM", "End"]
      = some (["211-Features:", "UTF8", "PASV", "REST STREAM", "211 End"],
          "211-Features:\r\nUTF8\r\nPASV\r\nREST STREAM\r\n211 End\r\n") := by decide
  cases h : sess.Authenticated <;> simp [FtpCommand.switch, h, hw]

theorem switch_SYST (cfg : ConfigOptions) (creds : Credentials) (sess : FtpSession)
    (sl : List String) :
    FtpCommand.switch cfg creds sess "SYST" sl
      = some (FtpCommand.finish cfg sess
          [if sess.Authenticated then WriteResponse 215 "UNIX"
           else WriteResponse 500 "Not logged in"]) := by
  cases h : sess.Authenticated <;> simp [FtpCommand.switch, h]

theorem switch_STAT (cfg : ConfigOptions) (creds : Credentials) (sess : FtpSession)
    (sl : List String) :
    FtpCommand.switch cfg creds sess "STAT" sl
      = some (FtpCommand.finish cfg sess
          [if sess.Authenticated then WriteResponse 200 "Rad. Yourself?"
           else WriteResponse 500 "Not logged in"]) := by
  cases h : sess.Authenticated <;> simp [FtpCommand.switch, h]

theorem switch_HELP (cfg : ConfigOptions) (creds : Credentials) (sess : FtpSession)
    (sl : List String) :
    FtpCommand.switch cfg creds sess "HELP" sl
      = some (FtpCommand.finish cfg sess [WriteResponse 200 cfg.Help]) := by
  simp [FtpCommand.switch]

theorem switch_NOOP (cfg : ConfigOptions) (creds : Credentials) (sess : FtpSession)
    (sl : List String) :
    FtpCommand.switch cfg creds sess "NOOP" sl
      = some (FtpCommand.finish cfg sess [WriteResponse 200 "OK"]) := by
  simp [FtpCommand.switch]

/-- The command words that have a `case` in the `switch` of `FtpCommand`. -/
theorem switch_default (cfg : ConfigOptions) (creds : Credentials) (sess : FtpSession)
    (cmd : String) (sl : List String)
    (h : cmd ∉ ["QUIT", "USER", "PASS", "REIN", "RETR", "PWD", "TYPE", "LIST", "FEAT",
      "STRU", "SYST", "STAT", "HELP", "NOOP"]) :
    FtpCommand.switch cfg creds sess cmd sl
      = some (FtpCommand.finish cfg sess
          [if cfg.Permissive then WriteResponse 200 "OK (not supported but faking it)"
           else WriteResponse 500 "Bad Command"]) := by
  simp only [List.mem_cons, List.mem_singleton, List.not_mem_nil, or_false, not_or] at h
  obtain ⟨h1, h2, h3, h4, h5, h6, h7, h8, h9, h10, h11, h12, h13, h14⟩ := h
  unfold FtpCommand.switch
  rw [if_neg h1, if_neg h2, if_neg h3, if_neg h4, if_neg h5, if_neg h6, if_neg h7, if_neg h8,
    if_neg h9, if_neg h10, if_neg h11, if_neg h12, if_neg h13, if_neg h14]
  cases cfg.Permissive <;> rfl

/-- A command other than QUIT, USER, PASS and REIN that returns leaves the session as it
was and ends in the check of the failure counter. -/
theorem switch_other (cfg : ConfigOptions) (creds : Credentials) (sess : FtpSession)
    (cmd : String) (sl : List String) (d : Dispatch)
    (hq : cmd ≠ "QUIT") (hu : cmd ≠ "USER") (hp : cmd ≠ "PASS") (hr : cmd ≠ "REIN")
    (h : FtpCommand.switch cfg creds sess cmd sl = some d) :
    ∃ c w, d = FtpCommand.finish c sess w := by
  by_cases h5 : cmd = "RETR"
  · subst h5; rw [switch_RETR] at h; cases h; exact ⟨_, _, rfl⟩
  by_cases h6 : cmd = "PWD"
  · subst h6; rw [switch_PWD] at h; cases h; exact ⟨_, _, rfl⟩
  by_cases h7 : cmd = "TYPE"
  · subst h7
    obtain ⟨r, _, hs⟩ := switch_TYPE cfg creds sess sl
    rw [hs] at h; cases h; exact ⟨_, _, rfl⟩
  by_cases h8 : cmd = "LIST"
  · subst h8
    rw [switch_LIST] at h
    split at h
    · cases hw : WriteResponseMultiLine 200 cfg.Fakedir_list with
      | none => rw [hw] at h; exact absurd h (by simp)
      | some p => rw [hw] at h; cases h; exact ⟨_, _, rfl⟩
    · cases h; exact ⟨_, _, rfl⟩
  by_cases h9 : cmd = "FEAT"
  · subst h9; rw [switch_FEAT] at h; cases h; exact ⟨_, _, rfl⟩
  by_cases h10 : cmd = "STRU"
  · subst h10
    obtain ⟨r, _, hs⟩ := switch_STRU cfg creds sess sl
    rw [hs] at h; cases h; exact ⟨_, _, rfl⟩
  by_cases h11 : cmd = "SYST"
  · subst h11; rw [switch_SYST] at h; cases h; exact ⟨_, _, rfl⟩
  by_cases h12 : cmd = "STAT"
  · subst h12; rw [switch_STAT] at h; cases h; exact ⟨_, _, rfl⟩
  by_cases h13 : cmd = "HELP"
  · subst h13; rw [switch_HELP] at h; cases h; exact ⟨_, _, rfl⟩
  by_cases h14 : cmd = "NOOP"
  · subst h14; rw [switch_NOOP] at h; cases h; exact ⟨_, _, rfl⟩
  have hd : cmd ∉ ["QUIT", "USER", "PASS", "REIN", "RETR", "PWD", "TYPE", "LIST", "FEAT",
      "STRU", "SYST", "STAT", "HELP", "NOOP"] := by
    simp only [List.mem_cons, List.mem_singleton, List.not_mem_nil, or_false, not_or]
    exact ⟨hq, hu, hp, hr, h5, h6, h7, h8, h9, h10, h11, h12, h13, h14⟩
  rw [switch_default _ _ _ _ _ hd] at h
  cases h; exact ⟨_, _, rfl⟩

/-- Every returning call of the switch, by command word. -/
theorem switch_cases (cfg : ConfigOptions) (creds : Credentials) (sess : FtpSession)
    (cmd : String) (sl : List String) (d : Dispatch)
    (h : FtpCommand.switch cfg creds sess cmd sl = some d) :
    (cmd = "QUIT" ∧ d = ⟨cfg, sess, [WriteResponse 221 "Goodbye"], false⟩) ∨
    (cmd = "USER" ∧ ∃ r, AuthUser creds sl sess = some r ∧
      d = FtpCommand.finish cfg (bumpFailures r) [WriteResponse r.code r.msg]) ∨
    (cmd = "PASS" ∧ ∃ r, CheckPassword creds sl sess = some r ∧
      d = FtpCommand.finish cfg (bumpFailures r) [WriteResponse r.code r.msg]) ∨
    (cmd = "REIN" ∧
      d = FtpCommand.finish cfg { sess with Authenticated := false, Username := "" }
        [WriteResponse 200 "OK Session Reinitialized"]) ∨
    (cmd ≠ "QUIT" ∧ cmd ≠ "USER" ∧ cmd ≠ "PASS" ∧ cmd ≠ "REIN" ∧
      ∃ c w, d = FtpCommand.finish c sess w) := by
  by_cases hq : cmd = "QUIT"
  · subst hq; rw [switch_QUIT] at h; cases h; exact Or.inl ⟨rfl, rfl⟩
  by_cases hu : cmd = "USER"
  · subst hu
    obtain ⟨r, hr⟩ := authUser_total creds sl sess
    rw [switch_USER _ _ _ _ _ hr] at h; cases h
    exact Or.inr (Or.inl ⟨rfl, r, hr, rfl⟩)
  by_cases hp : cmd = "PASS"
  · subst hp
    obtain ⟨r, hr⟩ := checkPassword_total creds sl sess
    rw [switch_PASS _ _ _ _ _ hr] at h; cases h
    exact Or.inr (Or.inr (Or.inl ⟨rfl, r, hr, rfl⟩))
  by_cases hr : cmd = "REIN"
  · subst hr; rw [switch_REIN] at h; cases h
    exact Or.inr (Or.inr (Or.inr (Or.inl ⟨rfl, rfl⟩)))
  exact Or.inr (Or.inr (Or.inr (Or.inr
    ⟨hq, hu, hp, hr, switch_other cfg creds sess cmd sl d hq hu hp hr h⟩)))

theorem bumpFailures_ok (r : HandlerResult) (h : r.ok = true) : bumpFailures r = r.sess := by
  simp [bumpFailures, h]

theorem bumpFailures_fail (r : HandlerResult) (h : r.ok = false) :
    bumpFailures r = { r.sess with Failures := wrapInt64 (r.sess.Failures + 1) } := by
  simp [bumpFailures, h]

theorem writeResponse_default_200 :
    WriteResponse 200 "OK (not supported but faking it)"
      = "200 OK (not supported but faking it)\r\n" := by decide

theorem writeResponse_default_500 : WriteResponse 500 "Bad Command" = "500 Bad Command\r\n" := by
  decide

/-- Claim C13. A line whose command word has no `case` in the dispatcher (it is none of
QUIT, USER, PASS, REIN, RETR, PWD, TYPE, LIST, FEAT, STRU, SYST, STAT, HELP, NOOP), such
as `FOO` or the empty line, is answered `500 Bad Command` when permissive mode is off
and `200 OK (not supported but faking it)` when it is on; the session and the
configuration stay as they were, and the dispatcher signals continue exactly when the
failure counter is below the limit. -/
theorem unknown_command (cfg : ConfigOptions) (creds : Credentials) (sess : FtpSession)
    (line cmd : String) (cmd_slice : List String)
    (hparse : FtpCommand.parse line = some (cmd, cmd_slice))
    (hcmd : cmd ∉ ["QUIT", "USER", "PASS", "REIN", "RETR", "PWD", "TYPE", "LIST", "FEAT",
      "STRU", "SYST", "STAT", "HELP", "NOOP"]) :
    ∃ d : Dispatch, FtpCommand cfg creds sess line = some d ∧
      (cfg.Permissive = false → d.written = ["500 Bad Command\r\n"]) ∧
      (cfg.Permissive = true → d.written = ["200 OK (not supported but faking it)\r\n"]) ∧
      d.sess = sess ∧ d.config = cfg ∧
      (d.result = true ↔ sess.Failures < FAILURE_LIMIT) := by
  refine ⟨_, by rw [ftpCommand_of_parse _ _ _ _ _ _ hparse, switch_default _ _ _ _ _ hcmd],
    ?_, ?_, finish_sess _ _ _, finish_config _ _ _, ?_⟩
  · intro hp
    rw [finish_written, hp, writeResponse_default_500]
    rfl
  · intro hp
    rw [finish_written, hp, writeResponse_default_200]
    rfl
  · rw [finish_result]
    simp [FAILURE_LIMIT]

/-- Witness of claim C13: the line `FOO` and the empty line. -/
theorem unknown_command_witness :
    (FtpCommand.parse "FOO\r\n" = some ("FOO", ["FOO"]) ∧
      "FOO" ∉ ["QUIT", "USER", "PASS", "REIN", "RETR", "PWD", "TYPE", "LIST", "FEAT",
        "STRU", "SYST", "STAT", "HELP", "NOOP"]) ∧
    FtpCommand exampleConfig exampleCredentials (freshSession "10.0.0.1:4000") "FOO\r\n"
      = some ⟨exampleConfig, freshSession "10.0.0.1:4000", ["500 Bad Command\r\n"], true⟩ ∧
    FtpCommand { exampleConfig with Permissive := true } exampleCredentials
        (freshSession "10.0.0.1:4000") ""
      = some ⟨{ exampleConfig with Permissive := true }, freshSession "10.0.0.1:4000",
          ["200 OK (not supported but faking it)\r\n"], true⟩ ∧
    ∃ d : Dispatch,
      FtpCommand exampleConfig exampleCredentials (freshSession "10.0.0.1:4000") "FOO\r\n"
        = some d ∧
      (exampleConfig.Permissive = false → d.written = ["500 Bad Command\r\n"]) ∧
      (exampleConfig.Permissive = true →
        d.written = ["200 OK (not supported but faking it)\r\n"]) ∧
      d.sess = freshSession "10.0.0.1:4000" ∧ d.config = exampleConfig ∧
      (d.result = true ↔ (freshSession "10.0.0.1:4000").Failures < FAILURE_LIMIT) :=
  ⟨⟨by decide, by decide⟩, by decide, by decide,
    unknown_command exampleConfig exampleCredentials (freshSession "10.0.0.1:4000")
      "FOO\r\n" "FOO" ["FOO"] (by decide) (by decide)⟩

/-- How one returning call of the dispatcher moves the failure counter. -/
theorem ftpCommand_failures (cfg : ConfigOptions) (creds : Credentials) (sess : FtpSession)
    (line cmd : String) (sl : List String) (d : Dispatch)
    (hparse : FtpCommand.parse line = some (cmd, sl))
    (h : FtpCommand cfg creds sess line = some d) :
    (d.sess.Failures = wrapInt64 (sess.Failures + 1) ∧
      ((cmd = "USER" ∧ UserFails creds sl sess) ∨ (cmd = "PASS" ∧ PassFails creds sl sess))) ∨
    (d.sess.Failures = sess.Failures ∧
      ¬ ((cmd = "USER" ∧ UserFails creds sl sess) ∨ (cmd = "PASS" ∧ PassFails creds sl sess))) := by
  rw [ftpCommand_of_parse _ _ _ _ _ _ hparse] at h
  rcases switch_cases cfg creds sess cmd sl d h with
    ⟨hc, rfl⟩ | ⟨hc, r, hr, rfl⟩ | ⟨hc, r, hr, rfl⟩ | ⟨hc, rfl⟩ | ⟨hq, hu, hp, _, c, w, rfl⟩
  · subst hc
    exact Or.inr ⟨rfl, by rintro (⟨h1, _⟩ | ⟨h1, _⟩) <;> exact absurd h1 (by decide)⟩
  · subst hc
    rw [finish_sess]
    rcases authUser_cases creds sl sess r hr with ⟨hok, hs, _⟩ | ⟨hok, _, _, w, name, _, _, hs⟩
    · left
      rw [bumpFailures_fail r hok, hs]
      exact ⟨rfl, Or.inl ⟨rfl, r, hr, hok⟩⟩
    · right
      rw [bumpFailures_ok r hok, hs]
      refine ⟨rfl, ?_⟩
      rintro (⟨_, r2, hr2, hok2⟩ | ⟨h1, _⟩)
      · rw [hr] at hr2; cases hr2; rw [hok] at hok2; exact absurd hok2 (by decide)
      · exact absurd h1 (by decide)
  · subst hc
    rw [finish_sess]
    rcases checkPassword_cases creds sl sess r hr with
      ⟨hok, hs, _⟩ | ⟨hok, _, _, _, w, pw, _, _, hs⟩
    · left
      rw [bumpFailures_fail r hok, hs]
      exact ⟨rfl, Or.inr ⟨rfl, r, hr, hok⟩⟩
    · right
      rw [bumpFailures_ok r hok, hs]
      refine ⟨rfl, ?_⟩
      rintro (⟨h1, _⟩ | ⟨_, r2, hr2, hok2⟩)
      · exact absurd h1 (by decide)
      · rw [hr] at hr2; cases hr2; rw [hok] at hok2; exact absurd hok2 (by decide)
  · subst hc
    rw [finish_sess]
    exact Or.inr ⟨rfl, by rintro (⟨h1, _⟩ | ⟨h1, _⟩) <;> exact absurd h1 (by decide)⟩
  · rw [finish_sess]
    exact Or.inr ⟨rfl, by rintro (⟨h1, _⟩ | ⟨h1, _⟩) <;> [exact hu h1; exact hp h1]⟩

theorem list_eq_pair (sl : List String) (h : sl.length = 2) : ∃ w a, sl = [w, a] := by
  match sl, h with
  | [w, a], _ => exact ⟨w, a, rfl⟩

/-- The handler of USER reports failure exactly for the causes of `UserRejected`. -/
theorem userFails_iff (creds : Credentials) (sl : List String) (sess : FtpSession) :
    UserFails creds sl sess ↔ UserRejected creds sl sess := by
  unfold UserFails UserRejected
  constructor
  · rintro ⟨r, hr, hok⟩
    by_cases hlen : sl.length ≠ 2
    · exact Or.inl hlen
    by_cases hauth : sess.Authenticated = true
    · exact Or.inr (Or.inl hauth)
    obtain ⟨w, name, rfl⟩ := list_eq_pair sl (not_not.mp hlen)
    cases hc : creds name with
    | none => exact Or.inr (Or.inr ⟨name, rfl, hc⟩)
    | some v =>
      simp [AuthUser, hauth, hc] at hr
      rw [← hr] at hok
      simp at hok
  · intro hcause
    obtain ⟨r, hr⟩ := authUser_total creds sl sess
    rcases authUser_cases creds sl sess r hr with
      ⟨hok, _⟩ | ⟨_, _, hna, w, name, rfl, hin, _⟩
    · exact ⟨r, hr, hok⟩
    · exfalso
      rcases hcause with h1 | h1 | ⟨n, hn, hnone⟩
      · exact h1 rfl
      · rw [hna] at h1; exact absurd h1 (by decide)
      · simp only [List.getElem?_cons_succ, List.getElem?_cons_zero,
          Option.some.injEq] at hn
        subst hn
        rw [hnone] at hin
        exact absurd hin (by decide)

/-- The handler of PASS reports failure exactly for the causes of `PassRejected`. -/
theorem passFails_iff (creds : Credentials) (sl : List String) (sess : FtpSession) :
    PassFails creds sl sess ↔ PassRejected creds sl sess := by
  unfold PassFails PassRejected
  constructor
  · rintro ⟨r, hr, hok⟩
    by_cases hlen : sl.length ≠ 2
    · exact Or.inl hlen
    by_cases hauth : sess.Authenticated = true
    · exact Or.inr (Or.inl hauth)
    by_cases hname : sess.Username = ""
    · exact Or.inr (Or.inr (Or.inl hname))
    obtain ⟨w, given, rfl⟩ := list_eq_pair sl (not_not.mp hlen)
    cases hc : creds sess.Username with
    | none => exact Or.inr (Or.inr (Or.inr (Or.inl rfl)))
    | some pw =>
      by_cases hpw : given = pw
      · simp [CheckPassword, hauth, hname, hc, hpw] at hr
        rw [← hr] at hok
        simp at hok
      · exact Or.inr (Or.inr (Or.inr (Or.inr ⟨pw, given, rfl, rfl, hpw⟩)))
  · intro hcause
    obtain ⟨r, hr⟩ := checkPassword_total creds sl sess
    rcases checkPassword_cases creds sl sess r hr with
      ⟨hok, _⟩ | ⟨_, _, hna, hname, w, pw, rfl, hpw, _⟩
    · exact ⟨r, hr, hok⟩
    · exfalso
      rcases hcause with h1 | h1 | h1 | h1 | ⟨pw2, g2, hpw2, hg2, hne⟩
      · exact h1 rfl
      · rw [hna] at h1; exact absurd h1 (by decide)
      · exact hname h1
      · rw [hpw] at h1; exact absurd h1 (by simp)
      · rw [hpw] at hpw2
        simp only [List.getElem?_cons_succ, List.getElem?_cons_zero,
          Option.some.injEq] at hg2 hpw2
        exact hne (hg2.symm.trans hpw2)

/-- Claim C14. The failure counter is monotone and exact. For every session whose counter
is a machine integer below the largest one (every session of a connection: the counter
starts at 0 and the connection ends at 3), one returning call of the dispatcher leaves
the counter unchanged or raised by exactly 1, never lower. It is raised exactly when
the command is USER and the line has bad syntax, the session is already authenticated
or the user is unknown, or the command is PASS and the line has bad syntax, the session
is already authenticated, no user name is set, the user is unknown or the password is
wrong. So neither a successful PASS nor REIN resets it. -/
theorem failures_exact (cfg : ConfigOptions) (creds : Credentials) (sess : FtpSession)
    (line cmd : String) (cmd_slice : List String) (d : Dispatch)
    (hlo : -9223372036854775808 ≤ sess.Failures)
    (hhi : sess.Failures < 9223372036854775807)
    (hparse : FtpCommand.parse line = some (cmd, cmd_slice))
    (h : FtpCommand cfg creds sess line = some d) :
    (d.sess.Failures = sess.Failures ∨ d.sess.Failures = sess.Failures + 1) ∧
    sess.Failures ≤ d.sess.Failures ∧
    (d.sess.Failures = sess.Failures + 1 ↔
      ((cmd = "USER" ∧ UserRejected creds cmd_slice sess) ∨
        (cmd = "PASS" ∧ PassRejected creds cmd_slice sess))) := by
  have hw : wrapInt64 (sess.Failures + 1) = sess.Failures + 1 := by
    unfold wrapInt64; omega
  rw [← userFails_iff, ← passFails_iff]
  rcases ftpCommand_failures cfg creds sess line cmd cmd_slice d hparse h with
    ⟨hf, hc⟩ | ⟨hf, hc⟩
  · rw [hw] at hf
    exact ⟨Or.inr hf, by omega, fun _ => hc, fun _ => hf⟩
  · exact ⟨Or.inl hf, by omega, fun h1 => by omega, fun h2 => absurd h2 hc⟩

/-- Witness of claim C14: a successful PASS after two failures, and REIN, keep the
counter at 2; a USER command in a logged-in session raises it to 3. -/
theorem failures_exact_witness :
    FtpCommand exampleConfig exampleCredentials
        { aliceSession with Authenticated := false } "PASS secret\r\n"
      = some ⟨exampleConfig, aliceSession, ["230 OK (login successful)\r\n"], true⟩ ∧
    FtpCommand exampleConfig exampleCredentials aliceSession "REIN\r\n"
      = some ⟨exampleConfig, { aliceSession with Authenticated := false, Username := "" },
          ["200 OK Session Reinitialized\r\n"], true⟩ ∧
    ((-9223372036854775808 : Int) ≤ aliceSession.Failures ∧
      aliceSession.Failures < 9223372036854775807 ∧
      FtpCommand.parse "USER alice\r\n" = some ("USER", ["USER", "alice"]) ∧
      FtpCommand exampleConfig exampleCredentials aliceSession "USER alice\r\n"
        = some ⟨exampleConfig, { aliceSession with Failures := 3 },
            ["500 Already logged in\r\n"], false⟩) ∧
    (((3 : Int) = 2 ∨ (3 : Int) = 2 + 1) ∧ (2 : Int) ≤ 3 ∧
      ((3 : Int) = 2 + 1 ↔
        (("USER" = "USER" ∧ UserRejected exampleCredentials ["USER", "alice"] aliceSession) ∨
          ("USER" = "PASS" ∧
            PassRejected exampleCredentials ["USER", "alice"] aliceSession)))) :=
  ⟨by decide, by decide, ⟨by decide, by decide, by decide, by decide⟩,
    failures_exact exampleConfig exampleCredentials aliceSession "USER alice\r\n" "USER"
      ["USER", "alice"]
      ⟨exampleConfig, { aliceSession with Failures := 3 }, ["500 Already logged in\r\n"], false⟩
      (by decide) (by decide) (by decide) (by decide)⟩

/-- Claim C16. Termination decision: a returning call of the dispatcher returns `false`
(terminate) if and only if the command word is QUIT or the failure counter of the
session after the command is at least `FAILURE_LIMIT` (3); so it returns `false` with
the counter at the limit even when the command itself succeeded. -/
theorem terminate_iff (cfg : ConfigOptions) (creds : Credentials) (sess : FtpSession)
    (line cmd : String) (cmd_slice : List String) (d : Dispatch)
    (hparse : FtpCommand.parse line = some (cmd, cmd_slice))
    (h : FtpCommand cfg creds sess line = some d) :
    d.result = false ↔ (cmd = "QUIT" ∨ d.sess.Failures ≥ FAILURE_LIMIT) := by
  rw [ftpCommand_of_parse _ _ _ _ _ _ hparse] at h
  have hfin : ∀ c s w, (FtpCommand.finish c s w).result = false ↔
      (FtpCommand.finish c s w).sess.Failures ≥ FAILURE_LIMIT := by
    intro c s w
    rw [finish_result, finish_sess]
    simp [FAILURE_LIMIT]
  rcases switch_cases cfg creds sess cmd cmd_slice d h with
    ⟨hc, rfl⟩ | ⟨hc, r, hr, rfl⟩ | ⟨hc, r, hr, rfl⟩ | ⟨hc, rfl⟩ | ⟨hq, _, _, _, c, w, rfl⟩
  · exact ⟨fun _ => Or.inl hc, fun _ => rfl⟩
  · subst hc
    rw [hfin]
    exact ⟨Or.inr, fun h1 => h1.resolve_left (by decide)⟩
  · subst hc
    rw [hfin]
    exact ⟨Or.inr, fun h1 => h1.resolve_left (by decide)⟩
  · subst hc
    rw [hfin]
    exact ⟨Or.inr, fun h1 => h1.resolve_left (by decide)⟩
  · rw [hfin]
    exact ⟨Or.inr, fun h1 => h1.resolve_left hq⟩

/-- Witness of claim C16: NOOP succeeds, and with the counter at the limit the
dispatcher still returns `false`; with the counter below it returns `true`; QUIT
returns `false` at any counter. -/
theorem terminate_iff_witness :
    (FtpCommand.parse "NOOP\r\n" = some ("NOOP", ["NOOP"]) ∧
      FtpCommand exampleConfig exampleCredentials
          { freshSession "10.0.0.1:4000" with Failures := 3 } "NOOP\r\n"
        = some ⟨exampleConfig, { freshSession "10.0.0.1:4000" with Failures := 3 },
            ["200 OK\r\n"], false⟩) ∧
    FtpCommand exampleConfig exampleCredentials (freshSession "10.0.0.1:4000") "NOOP\r\n"
      = some ⟨exampleConfig, freshSession "10.0.0.1:4000", ["200 OK\r\n"], true⟩ ∧
    FtpCommand exampleConfig exampleCredentials (freshSession "10.0.0.1:4000") "quit\r\n"
      = some ⟨exampleConfig, freshSession "10.0.0.1:4000", ["221 Goodbye\r\n"], false⟩ ∧
    (false = false ↔ ("NOOP" = "QUIT" ∨ (3 : Int) ≥ FAILURE_LIMIT)) :=
  ⟨⟨by decide, by decide⟩, by decide, by decide,
    terminate_iff exampleConfig exampleCredentials
      { freshSession "10.0.0.1:4000" with Failures := 3 } "NOOP\r\n" "NOOP" ["NOOP"]
      ⟨exampleConfig, { freshSession "10.0.0.1:4000" with Failures := 3 }, ["200 OK\r\n"], false⟩
      (by decide) (by decide)⟩

/-- Claim C19. Atomicity of failed authentication: when a USER or a PASS line fails, the
dispatcher returns, and the session it leaves differs from the session before only in
the failure counter, which is raised by one (as a machine integer; by exactly one
whenever the counter is below the largest machine integer): `Username` and
`Authenticated`, like every other field, are as before. The configuration is
untouched as well. -/
theorem failed_auth_atomic (cfg : ConfigOptions) (creds : Credentials) (sess : FtpSession)
    (line cmd : String) (cmd_slice : List String)
    (hparse : FtpCommand.parse line = some (cmd, cmd_slice))
    (hfail : (cmd = "USER" ∧ UserFails creds cmd_slice sess) ∨
      (cmd = "PASS" ∧ PassFails creds cmd_slice sess)) :
    ∃ d : Dispatch, FtpCommand cfg creds sess line = some d ∧
      d.sess = { sess with Failures := wrapInt64 (sess.Failures + 1) } ∧
      (-9223372036854775808 ≤ sess.Failures → sess.Failures < 9223372036854775807 →
        d.sess = { sess with Failures := sess.Failures + 1 }) ∧
      d.sess.Username = sess.Username ∧ d.sess.Authenticated = sess.Authenticated ∧
      d.config = cfg := by
  have hw : -9223372036854775808 ≤ sess.Failures → sess.Failures < 9223372036854775807 →
      wrapInt64 (sess.Failures + 1) = sess.Failures + 1 := by
    intro h1 h2; unfold wrapInt64; omega
  rw [ftpCommand_of_parse _ _ _ _ _ _ hparse]
  rcases hfail with ⟨rfl, r, hr, hok⟩ | ⟨rfl, r, hr, hok⟩
  · rcases authUser_cases creds cmd_slice sess r hr with ⟨_, hs, _⟩ | ⟨hok2, _⟩
    · refine ⟨_, switch_USER _ _ _ _ _ hr, ?_, ?_, ?_, ?_, finish_config _ _ _⟩
      · rw [finish_sess]; simp [hok, hs]
      · intro h1 h2; rw [finish_sess]; simp [hok, hs, hw h1 h2]
      · rw [finish_sess]; simp [hok, hs]
      · rw [finish_sess]; simp [hok, hs]
    · rw [hok] at hok2; exact absurd hok2 (by decide)
  · rcases checkPassword_cases creds cmd_slice sess r hr with ⟨_, hs, _⟩ | ⟨hok2, _⟩
    · refine ⟨_, switch_PASS _ _ _ _ _ hr, ?_, ?_, ?_, ?_, finish_config _ _ _⟩
      · rw [finish_sess]; simp [hok, hs]
      · intro h1 h2; rw [finish_sess]; simp [hok, hs, hw h1 h2]
      · rw [finish_sess]; simp [hok, hs]
      · rw [finish_sess]; simp [hok, hs]
    · rw [hok] at hok2; exact absurd hok2 (by decide)

/-- Witness of claim C19: after a successful `USER alice`, a failed `USER bob` keeps the
user name `alice`, and a failed PASS keeps it too, with `Authenticated` still false. -/
theorem failed_auth_atomic_witness :
    (FtpCommand.parse "USER bob\r\n" = some ("USER", ["USER", "bob"]) ∧
      ("USER" = "USER" ∧ UserFails exampleCredentials ["USER", "bob"] aliceNamedSession)) ∧
    FtpCommand exampleConfig exampleCredentials aliceNamedSession "USER bob\r\n"
      = some ⟨exampleConfig, { aliceNamedSession with Failures := 1 },
          ["530 Bad or Unknown User\r\n"], true⟩ ∧
    FtpCommand exampleConfig exampleCredentials aliceNamedSession "PASS wrong\r\n"
      = some ⟨exampleConfig, { aliceNamedSession with Failures := 1 },
          ["530 Bad Password\r\n"], true⟩ ∧
    ∃ d : Dispatch,
      FtpCommand exampleConfig exampleCredentials aliceNamedSession "USER bob\r\n" = some d ∧
      d.sess = { aliceNamedSession with
                 Failures := wrapInt64 (aliceNamedSession.Failures + 1) } ∧
      (-9223372036854775808 ≤ aliceNamedSession.Failures →
        aliceNamedSession.Failures < 9223372036854775807 →
        d.sess = { aliceNamedSession with Failures := aliceNamedSession.Failures + 1 }) ∧
      d.sess.Username = aliceNamedSession.Username ∧
      d.sess.Authenticated = aliceNamedSession.Authenticated ∧
      d.config = exampleConfig :=
  have hfail : UserFails exampleCredentials ["USER", "bob"] aliceNamedSession :=
    ⟨⟨aliceNamedSession, false, 530, "Bad or Unknown User"⟩, by decide, rfl⟩
  ⟨⟨by decide, rfl, hfail⟩, by decide, by decide,
    failed_auth_atomic exampleConfig exampleCredentials aliceNamedSession "USER bob\r\n"
      "USER" ["USER", "bob"] (by decide) (Or.inl ⟨rfl, hfail⟩)⟩

/-- The dispatcher fails (with an index out of range) exactly on a LIST command in an
authenticated session when the configured listing is empty. -/
theorem ftpCommand_none_iff (cfg : ConfigOptions) (creds : Credentials) (sess : FtpSession)
    (line : String) :
    FtpCommand cfg creds sess line = none ↔
      (∃ cmd_slice, FtpCommand.parse line = some ("LIST", cmd_slice)) ∧
        sess.Authenticated = true ∧ cfg.Fakedir_list = [] := by
  obtain ⟨cmd, sl, hparse⟩ := parse_total line
  rw [ftpCommand_of_parse _ _ _ _ _ _ hparse]
  constructor
  · intro h
    by_cases hl : cmd = "LIST"
    · subst hl
      rw [switch_LIST] at h
      split at h
      · rename_i hauth
        cases hw : WriteResponseMultiLine 200 cfg.Fakedir_list with
        | none => exact ⟨⟨sl, hparse⟩, hauth, (writeResponseMultiLine_none _ _).mp hw⟩
        | some p => rw [hw] at h; exact absurd h (by simp)
      · exact absurd h (by simp)
    · exfalso
      by_cases hq : cmd = "QUIT"
      · subst hq; rw [switch_QUIT] at h; exact absurd h (by simp)
      by_cases hu : cmd = "USER"
      · subst hu
        obtain ⟨r, hr⟩ := authUser_total creds sl sess
        rw [switch_USER _ _ _ _ _ hr] at h; exact absurd h (by simp)
      by_cases hp : cmd = "PASS"
      · subst hp
        obtain ⟨r, hr⟩ := checkPassword_total creds sl sess
        rw [switch_PASS _ _ _ _ _ hr] at h; exact absurd h (by simp)
      by_cases hr : cmd = "REIN"
      · subst hr; rw [switch_REIN] at h; exact absurd h (by simp)
      by_cases h5 : cmd = "RETR"
      · subst h5; rw [switch_RETR] at h; exact absurd h (by simp)
      by_cases h6 : cmd = "PWD"
      · subst h6; rw [switch_PWD] at h; exact absurd h (by simp)
      by_cases h7 : cmd = "TYPE"
      · subst h7
        obtain ⟨r, _, hs⟩ := switch_TYPE cfg creds sess sl
        rw [hs] at h; exact absurd h (by simp)
      by_cases h9 : cmd = "FEAT"
      · subst h9; rw [switch_FEAT] at h; exact absurd h (by simp)
      by_cases h10 : cmd = "STRU"
      · subst h10
        obtain ⟨r, _, hs⟩ := switch_STRU cfg creds sess sl
        rw [hs] at h; exact absurd h (by simp)
      by_cases h11 : cmd = "SYST"
      · subst h11; rw [switch_SYST] at h; exact absurd h (by simp)
      by_cases h12 : cmd = "STAT"
      · subst h12; rw [switch_STAT] at h; exact absurd h (by simp)
      by_cases h13 : cmd = "HELP"
      · subst h13; rw [switch_HELP] at h; exact absurd h (by simp)
      by_cases h14 : cmd = "NOOP"
      · subst h14; rw [switch_NOOP] at h; exact absurd h (by simp)
      have hd : cmd ∉ ["QUIT", "USER", "PASS", "REIN", "RETR", "PWD", "TYPE", "LIST", "FEAT",
          "STRU", "SYST", "STAT", "HELP", "NOOP"] := by
        simp only [List.mem_cons, List.mem_singleton, List.not_mem_nil, or_false, not_or]
        exact ⟨hq, hu, hp, hr, h5, h6, h7, hl, h9, h10, h11, h12, h13, h14⟩
      rw [switch_default _ _ _ _ _ hd] at h
      exact absurd h (by simp)
  · rintro ⟨⟨sl2, hp2⟩, hauth, hempty⟩
    rw [hparse] at hp2
    cases hp2
    rw [switch_LIST, if_pos hauth, hempty]
    rfl

/-- Claim C20, the code at the failing input. With an empty fake directory listing, a
LIST line in an authenticated session makes the multi-line writer index an empty slice
(`msg_slice[0]`): the dispatcher does not return. This is the only failing path: the
dispatcher fails exactly for a LIST command in an authenticated session when the
configured listing is empty. -/
theorem list_empty_panics :
    FtpCommand { exampleConfig with Fakedir_list := [] } exampleCredentials aliceSession
      "LIST\r\n" = none ∧
    WriteResponseMultiLine 200 [] = none ∧
    ∀ (cfg : ConfigOptions) (creds : Credentials) (sess : FtpSession) (line : String),
      FtpCommand cfg creds sess line = none ↔
        ((∃ cmd_slice, FtpCommand.parse line = some ("LIST", cmd_slice)) ∧
          sess.Authenticated = true ∧ cfg.Fakedir_list = []) :=
  ⟨by decide, by decide, ftpCommand_none_iff⟩

/-- Claim C17, the code at the failing input. For a one-element list the multi-line
writer stores the first-line form into the element and then builds the last-line form
from the stored text: it writes the code, a space, the code again, a dash and the
line, which is not what the single-line writer writes for that code and line. -/
theorem multiline_single_line :
    (∀ (code : Int) (line : String),
      WriteResponseMultiLine code [line]
        = some ([fmt_int code ++ " " ++ (fmt_int code ++ "-" ++ line)],
            fmt_int code ++ " " ++ (fmt_int code ++ "-" ++ line) ++ "\r\n")) ∧
    WriteResponseMultiLine 200 ["readme"] = some (["200 200-readme"], "200 200-readme\r\n") ∧
    WriteResponse 200 "readme" = "200 readme\r\n" ∧
    FtpCommand { exampleConfig with Fakedir_list := ["readme"] } exampleCredentials
        aliceSession "LIST\r\n"
      = some ⟨{ exampleConfig with Fakedir_list := ["200 200-readme"] }, aliceSession,
          ["200 200-readme\r\n"], true⟩ :=
  ⟨fun _ _ => rfl, by decide, by decide, by decide⟩

/-- Claim C18, the code at the failing input. The multi-line writer stores into the
slice it is given, and LIST gives it the slice of the global configuration: after one
LIST the configured listing holds the framed lines, and a second LIST frames them once
more, so the two responses differ. -/
theorem list_changes_configuration :
    exampleConfig.Fakedir_list = ["drwxr-xr-x pub", "-rw-r--r-- readme"] ∧
    FtpCommand exampleConfig exampleCredentials aliceSession "LIST\r\n"
      = some ⟨{ exampleConfig with
                Fakedir_list := ["200-drwxr-xr-x pub", "200 -rw-r--r-- readme"] },
          aliceSession, ["200-drwxr-xr-x pub\r\n200 -rw-r--r-- readme\r\n"], true⟩ ∧
    FtpCommand
        { exampleConfig with Fakedir_list := ["200-drwxr-xr-x pub", "200 -rw-r--r-- readme"] }
        exampleCredentials aliceSession "LIST\r\n"
      = some ⟨{ exampleConfig with
                Fakedir_list := ["200-200-drwxr-xr-x pub", "200 200 -rw-r--r-- readme"] },
          aliceSession, ["200-200-drwxr-xr-x pub\r\n200 200 -rw-r--r-- readme\r\n"], true⟩ ∧
    (NewConnection.loop exampleCredentials exampleConfig aliceSession
        [some "LIST\r\n", some "LIST\r\n"]).map (fun d => d.written)
      = some ["200-drwxr-xr-x pub\r\n200 -rw-r--r-- readme\r\n",
          "200-200-drwxr-xr-x pub\r\n200 200 -rw-r--r-- readme\r\n"] :=
  ⟨rfl, by decide, by decide, by decide⟩

/-- How one returning call of the dispatcher moves `Authenticated` and `Username`. -/
theorem ftpCommand_identity (cfg : ConfigOptions) (creds : Credentials) (sess : FtpSession)
    (line : String) (d : Dispatch) (h : FtpCommand cfg creds sess line = some d) :
    (d.sess.Authenticated = sess.Authenticated ∧ d.sess.Username = sess.Username) ∨
    (d.sess.Authenticated = false ∧ d.sess.Username = "") ∨
    (d.sess.Authenticated = false ∧ ∃ w r,
      FtpCommand.parse line = some ("USER", [w, d.sess.Username]) ∧
      AuthUser creds [w, d.sess.Username] sess = some r ∧ r.ok = true ∧
      (creds d.sess.Username).isSome = true) ∨
    (sess.Authenticated = false ∧ d.sess.Authenticated = true ∧
      d.sess.Username = sess.Username ∧ sess.Username ≠ "" ∧
      ∃ w pw, FtpCommand.parse line = some ("PASS", [w, pw]) ∧
        creds sess.Username = some pw) := by
  obtain ⟨cmd, sl, hparse⟩ := parse_total line
  rw [ftpCommand_of_parse _ _ _ _ _ _ hparse] at h
  rcases switch_cases cfg creds sess cmd sl d h with
    ⟨hc, rfl⟩ | ⟨hc, r, hr, rfl⟩ | ⟨hc, r, hr, rfl⟩ | ⟨hc, rfl⟩ | ⟨_, _, _, _, c, w, rfl⟩
  · exact Or.inl ⟨rfl, rfl⟩
  · subst hc
    rw [finish_sess]
    rcases authUser_cases creds sl sess r hr with
      ⟨hok, hs, _⟩ | ⟨hok, _, hna, w, name, rfl, hin, hs⟩
    · rw [bumpFailures_fail r hok, hs]
      exact Or.inl ⟨rfl, rfl⟩
    · rw [bumpFailures_ok r hok, hs]
      exact Or.inr (Or.inr (Or.inl ⟨rfl, w, r, hparse, hr, hok, hin⟩))
  · subst hc
    rw [finish_sess]
    rcases checkPassword_cases creds sl sess r hr with
      ⟨hok, hs, _⟩ | ⟨hok, _, hna, hname, w, pw, rfl, hpw, hs⟩
    · rw [bumpFailures_fail r hok, hs]
      exact Or.inl ⟨rfl, rfl⟩
    · rw [bumpFailures_ok r hok, hs]
      exact Or.inr (Or.inr (Or.inr ⟨hna, rfl, rfl, hname, w, pw, hparse, hpw⟩))
  · rw [finish_sess]
    exact Or.inr (Or.inl ⟨rfl, rfl⟩)
  · rw [finish_sess]
    exact Or.inl ⟨rfl, rfl⟩

/-- Claim C12. Session authentication invariant. In every session state reached from a
freshly accepted session by dispatcher calls on arbitrary lines, `Authenticated = true`
implies that `Username` is a key of the credential store. A call turns `Authenticated`
from false to true only for a PASS line whose password equals the stored password of
the session's user name, which it keeps. And a user name that is not empty was set by
an earlier USER line of the session that succeeded. -/
theorem auth_invariant (creds : Credentials) (cfg0 : ConfigOptions) (host : String) :
    (∀ lines cfg sess, SessionRun creds cfg0 host lines cfg sess →
      sess.Authenticated = true → (creds sess.Username).isSome = true) ∧
    (∀ cfg sess line d, sess.Authenticated = false →
      FtpCommand cfg creds sess line = some d → d.sess.Authenticated = true →
      d.sess.Username = sess.Username ∧ sess.Username ≠ "" ∧
      ∃ w pw, FtpCommand.parse line = some ("PASS", [w, pw]) ∧
        creds sess.Username = some pw) ∧
    (∀ lines cfg sess, SessionRun creds cfg0 host lines cfg sess → sess.Username ≠ "" →
      ∃ before line after cfg1 sess1 w r,
        lines = before ++ line :: after ∧
        SessionRun creds cfg0 host before cfg1 sess1 ∧
        FtpCommand.parse line = some ("USER", [w, sess.Username]) ∧
        AuthUser creds [w, sess.Username] sess1 = some r ∧ r.ok = true) := by
  refine ⟨?_, ?_, ?_⟩
  · intro lines cfg sess hrun
    induction hrun with
    | accept => intro h; exact absurd h (by simp [freshSession])
    | command lines cfg sess line d _ hd ih =>
      intro hauth
      rcases ftpCommand_identity cfg creds sess line d hd with
        ⟨ha, hu⟩ | ⟨ha, _⟩ | ⟨ha, _⟩ | ⟨_, _, hu, _, w, pw, _, hpw⟩
      · rw [hu]; exact ih (ha ▸ hauth)
      · rw [ha] at hauth; exact absurd hauth (by decide)
      · rw [ha] at hauth; exact absurd hauth (by decide)
      · rw [hu, hpw]; rfl
  · intro cfg sess line d hna hd hauth
    rcases ftpCommand_identity cfg creds sess line d hd with
      ⟨ha, _⟩ | ⟨ha, _⟩ | ⟨ha, _⟩ | ⟨_, _, hu, hname, w, pw, hp, hpw⟩
    · rw [ha, hna] at hauth; exact absurd hauth (by decide)
    · rw [ha] at hauth; exact absurd hauth (by decide)
    · rw [ha] at hauth; exact absurd hauth (by decide)
    · exact ⟨hu, hname, w, pw, hp, hpw⟩
  · intro lines cfg sess hrun
    induction hrun with
    | accept => intro h; exact absurd rfl h
    | command lines cfg sess line d hrun hd ih =>
      intro hname
      have keep : d.sess.Username = sess.Username →
          ∃ before l after cfg1 sess1 w r,
            lines ++ [line] = before ++ l :: after ∧
            SessionRun creds cfg0 host before cfg1 sess1 ∧
            FtpCommand.parse l = some ("USER", [w, d.sess.Username]) ∧
            AuthUser creds [w, d.sess.Username] sess1 = some r ∧ r.ok = true := by
        intro hu
        obtain ⟨before, l, after, cfg1, sess1, w, r, hl, hr1, hp, har, hok⟩ :=
          ih (hu ▸ hname)
        refine ⟨before, l, after ++ [line], cfg1, sess1, w, r, ?_, hr1, ?_, ?_, hok⟩
        · rw [hl]; simp
        · rw [hu]; exact hp
        · rw [hu]; exact har
      rcases ftpCommand_identity cfg creds sess line d hd with
        ⟨_, hu⟩ | ⟨_, hu⟩ | ⟨_, w, r, hp, har, hok, _⟩ | ⟨_, _, hu, _⟩
      · exact keep hu
      · exact absurd hu hname
      · exact ⟨lines, line, [], cfg, sess, w, r, rfl, hrun, hp, har, hok⟩
      · exact keep hu

/-- Witness of claim C12: the session after `USER alice` and `PASS secret`. -/
theorem auth_invariant_witness :
    (SessionRun exampleCredentials exampleConfig "10.0.0.1:4000"
        (([] ++ ["USER alice\r\n"]) ++ ["PASS secret\r\n"]) exampleConfig
        { aliceNamedSession with Authenticated := true } ∧
      ({ aliceNamedSession with Authenticated := true } : FtpSession).Authenticated = true) ∧
    (exampleCredentials
      ({ aliceNamedSession with Authenticated := true } : FtpSession).Username).isSome = true :=
  have h1 : FtpCommand exampleConfig exampleCredentials (freshSession "10.0.0.1:4000")
      "USER alice\r\n"
      = some ⟨exampleConfig, aliceNamedSession, ["331 User OK, specify password\r\n"], true⟩ := by
    decide
  have h2 : FtpCommand exampleConfig exampleCredentials aliceNamedSession "PASS secret\r\n"
      = some ⟨exampleConfig, { aliceNamedSession with Authenticated := true },
          ["230 OK (login successful)\r\n"], true⟩ := by
    decide
  have hrun : SessionRun exampleCredentials exampleConfig "10.0.0.1:4000"
      (([] ++ ["USER alice\r\n"]) ++ ["PASS secret\r\n"]) exampleConfig
      { aliceNamedSession with Authenticated := true } :=
    SessionRun.command _ _ _ _ _ (SessionRun.command _ _ _ _ _ SessionRun.accept h1) h2
  ⟨⟨hrun, rfl⟩,
    (auth_invariant exampleCredentials exampleConfig "10.0.0.1:4000").1 _ _ _ hrun rfl⟩

end Faketp
